import Mathlib

/-!
Shallow embedding of the 2048 rules engine in `src/2048/main.py`.

The grid is a 4×4 list of lists of integers (Python `List[List[int]]`).
Randomness in `place_random_tile` is modelled by two extra inputs: `draw`
(the `randint(0, 9)` outcome) and `pick` (an index selecting one of the
empty coordinates, reduced modulo their number, standing for
`random.choice`).  Python exceptions (`ValueError`) are modelled with
`Except String`.
-/

namespace Game2048

abbrev Grid := List (List Int)

/-- `Game.__ROWS`. -/
def ROWS : Nat := 4

/-- `Game.__COLS`. -/
def COLS : Nat := 4

/-- The `Direction` enum. -/
inductive Direction : Type
  | UP
  | DOWN
  | LEFT
  | RIGHT
deriving DecidableEq, Repr

/-- `self.__grid[y][x]` (all callers stay in bounds on a 4×4 grid; the
defaults are never reached there). -/
def getCell (g : Grid) (y x : Nat) : Int :=
  (g.getD y []).getD x 0

/-- The column extraction `[self.__grid[y][x] for y in range(Game.__ROWS)]`. -/
def column (g : Grid) (x : Nat) : List Int :=
  (List.range ROWS).map (fun y => getCell g y x)

/-- The merge scan of `Game.__combine_tiles`: the `while` loop over the
zero-free list.  When two adjacent tiles are equal they fuse into one tile
of double value (scoring that doubled value) and the scan resumes after the
fused tile, so a merged tile is never re-compared in the same pass. -/
def mergePass : List Int → List Int × Int
  | [] => ([], 0)
  | [a] => ([a], 0)
  | a :: b :: rest =>
    if a = b then
      let p := mergePass rest
      (2 * a :: p.1, 2 * a + p.2)
    else
      let p := mergePass (b :: rest)
      (a :: p.1, p.2)

/-- The zero-stripping step of `Game.__combine_tiles`:
`[tile for tile in tiles[::-1] if tile != 0]` when combining right, and
`[tile for tile in tiles if tile != 0]` otherwise. -/
def strippedLine (tiles : List Int) (right : Bool) : List Int :=
  if right then (tiles.reverse).filter (fun t => t != 0)
  else tiles.filter (fun t => t != 0)

/-- `Game.__combine_tiles(tiles, right)`: strip zeros (reversing first when
combining to the right), run the merge scan, pad with zeros back to
`COLS`, undo the reversal, and report the score and whether the line
changed. -/
def combine_tiles (tiles : List Int) (right : Bool) : List Int × Int × Bool :=
  let old_tiles := tiles
  let merged := mergePass (strippedLine tiles right)
  let padded := merged.1 ++ List.replicate (COLS - merged.1.length) 0
  let final := if right then padded.reverse else padded
  (final, merged.2, old_tiles != final)

/-- `Game.__set_tile(x, y, value)`: rejects odd values and out-of-range
coordinates with `ValueError`, otherwise writes `grid[y][x] = value`. -/
def set_tile (g : Grid) (x y : Nat) (value : Int) : Except String Grid :=
  if value % 2 != 0 then .error "Tile value must be a power of 2"
  else if x < COLS ∧ y < ROWS then .ok (g.set y ((g.getD y []).set x value))
  else .error "Invalid tile position"

/-- The write-back loop of `Game.__move_tiles`: positions of the combined
line are written one by one with `__set_tile`; for a vertical move the line
is column `mi`, otherwise it is row `mi`. -/
def writeLine (vertical : Bool) (mi : Nat) : Grid → Nat → List Int → Except String Grid
  | g, _, [] => .ok g
  | g, j, v :: vs =>
    match (if vertical then set_tile g mi j v else set_tile g j mi v) with
    | .error e => .error e
    | .ok g1 => writeLine vertical mi g1 (j + 1) vs

/-- The main loop of `Game.__move_tiles`: combine each line, accumulate the
score and the moved flag, and write every combined line back. -/
def moveLoop (vertical right : Bool) :
    List (List Int) → Nat → Grid → Int → Bool → Except String (Grid × Int × Bool)
  | [], _, g, score, moved => .ok (g, score, moved)
  | l :: rest, mi, g, score, moved =>
    match combine_tiles l right with
    | (v, s, mv) =>
      match writeLine vertical mi g 0 v with
      | .error e => .error e
      | .ok g1 => moveLoop vertical right rest (mi + 1) g1 (score + s) (moved || mv)

/-- Whether a direction extracts columns (`UP`/`DOWN`). -/
def isVertical : Direction → Bool
  | .UP => true
  | .DOWN => true
  | _ => false

/-- `combine_right` of `Game.__move_tiles`: `DOWN` is combined as `RIGHT`. -/
def combineRight : Direction → Bool
  | .RIGHT => true
  | .DOWN => true
  | _ => false

/-- `Game.__move_tiles(direction)`: rows for horizontal moves, columns for
vertical ones, each combined and written back; returns the updated grid,
the move score and whether any line changed. -/
def move_tiles (g : Grid) (d : Direction) : Except String (Grid × Int × Bool) :=
  let to_combine :=
    if isVertical d then (List.range COLS).map (fun x => column g x) else g
  moveLoop (isVertical d) (combineRight d) to_combine 0 g 0 false

/-- The empty-coordinate scan of `Game.__place_random_tile`: `(x, y)` pairs
with `grid[y][x] == 0`, rows outer, columns inner. -/
def emptyCells (g : Grid) : List (Nat × Nat) :=
  ((List.range ROWS).map
    (fun y => ((List.range COLS).filter (fun x => getCell g y x == 0)).map
      (fun x => (x, y)))).flatten

/-- `Game.__place_random_tile()` with the random draws as inputs: `draw` is
the `randint(0, 9)` outcome (`0` gives a 4, anything else a 2) and
`pick % len` selects the empty coordinate that `random.choice` returned.
Returns the updated grid and `bool(len(potential_coords) - 1)`. -/
def place_random_tile (g : Grid) (draw pick : Nat) : Except String (Grid × Bool) :=
  let added_value : Int := if draw > 0 then 2 else 4
  let potential_coords := emptyCells g
  if potential_coords = [] then .ok (g, false)
  else
    let c := potential_coords.getD (pick % potential_coords.length) (0, 0)
    match set_tile g c.1 c.2 added_value with
    | .error e => .error e
    | .ok g1 => .ok (g1, potential_coords.length - 1 != 0)

/-- `Game.__check_game_over()`: true iff no horizontally adjacent pair and
no vertically adjacent pair of cells holds equal values. -/
def check_game_over (g : Grid) : Bool :=
  ((List.range ROWS).all fun y =>
    (List.range (COLS - 1)).all fun x => !(getCell g y x == getCell g y (x + 1))) &&
  ((List.range (ROWS - 1)).all fun y =>
    (List.range COLS).all fun x => !(getCell g y x == getCell g (y + 1) x))

/-- `Game.get_biggest_block()`: running maximum, starting from 0, over all
cells in row-major order. -/
def get_biggest_block (g : Grid) : Int :=
  (((List.range ROWS).map (fun y => (List.range COLS).map (fun x => getCell g y x))).flatten).foldl
    max 0

/-- `Game.make_move(direction)`: move the tiles; if anything moved, spawn a
random tile, and when no empty space remains run the game-over check.
Returns the updated grid with the score and game-over flag. -/
def make_move (g : Grid) (d : Direction) (draw pick : Nat) :
    Except String (Grid × Int × Bool) :=
  match move_tiles g d with
  | .error e => .error e
  | .ok (g1, move_score, moved) =>
    if moved then
      match place_random_tile g1 draw pick with
      | .error e => .error e
      | .ok (g2, empty_space) =>
        if empty_space then .ok (g2, move_score, false)
        else .ok (g2, move_score, check_game_over g2)
    else .ok (g1, move_score, false)

/-- The caller-supplied-grid branch of `Game.__init__`: reject a grid whose
dimensions do not match `ROWS × COLS`, otherwise adopt it. -/
def game_init (grid : Grid) : Except String Grid :=
  if grid.length != ROWS || grid.any (fun row => row.length != COLS) then
    .error "Invalid grid dimensions"
  else .ok grid

/-! Specification-side predicates about grids. -/

/-- A grid of the configured dimensions. -/
def wellFormed (g : Grid) : Prop :=
  g.length = ROWS ∧ ∀ row ∈ g, row.length = COLS

/-- Every cell is 0 or a positive power of two (the spec's data-model
invariant). -/
def powGrid (g : Grid) : Prop :=
  ∀ row ∈ g, ∀ v ∈ row, v = 0 ∨ ∃ k : Nat, 0 < k ∧ v = 2 ^ k

/-- No cell of the 4×4 grid is empty. -/
def fullGrid (g : Grid) : Prop :=
  ∀ y < ROWS, ∀ x < COLS, getCell g y x ≠ 0

/-- No two horizontally or vertically adjacent cells hold equal values. -/
def noAdjacentEqual (g : Grid) : Prop :=
  (∀ y < ROWS, ∀ x < COLS - 1, getCell g y x ≠ getCell g y (x + 1)) ∧
  (∀ y < ROWS - 1, ∀ x < COLS, getCell g y x ≠ getCell g (y + 1) x)

instance : DecidablePred wellFormed := fun g => by unfold wellFormed; infer_instance

instance : DecidablePred fullGrid := fun g => by unfold fullGrid; infer_instance

instance : DecidablePred noAdjacentEqual := fun g => by unfold noAdjacentEqual; infer_instance

example : combine_tiles [2, 2, 2, 2] false = ([4, 4, 0, 0], 8, true) := by decide

example : combine_tiles [2, 2, 0, 0] true = ([0, 0, 0, 4], 4, true) := by decide

/-! ### Lemmas about the merge scan -/

theorem mergePass_length_le (l : List Int) : (mergePass l).1.length ≤ l.length := by
  induction l using mergePass.induct with
  | case1 => simp [mergePass]
  | case2 a => simp [mergePass]
  | case3 a rest ih => simp [mergePass]; omega
  | case4 a b rest h ih => simp [mergePass, h]; simpa using ih

theorem mergePass_eq_of_length (l : List Int)
    (h : (mergePass l).1.length = l.length) : mergePass l = (l, 0) := by
  induction l using mergePass.induct with
  | case1 => simp [mergePass]
  | case2 a => simp [mergePass]
  | case3 a rest ih =>
    exfalso
    have := mergePass_length_le rest
    simp [mergePass] at h
    omega
  | case4 a b rest hne ih =>
    simp only [mergePass, if_neg hne] at h ⊢
    simp only [List.length_cons] at h
    have h2 := ih (by simpa using h)
    simp [h2]

theorem mergePass_nonzero (l : List Int) (h : ∀ x ∈ l, x ≠ 0) :
    ∀ v ∈ (mergePass l).1, v ≠ 0 := by
  induction l using mergePass.induct with
  | case1 => simp [mergePass]
  | case2 a => simpa [mergePass] using h
  | case3 a rest ih =>
    intro v hv
    simp only [mergePass, if_pos rfl] at hv
    rcases List.mem_cons.mp hv with hv | hv
    · have ha : a ≠ 0 := h a (by simp)
      subst hv; intro hc; omega
    · exact ih (fun x hx => h x (by simp [hx])) v hv
  | case4 a b rest hne ih =>
    intro v hv
    simp only [mergePass, if_neg hne] at hv
    rcases List.mem_cons.mp hv with hv | hv
    · subst hv; exact h v (by simp)
    · exact ih (fun x hx => h x (by rcases List.mem_cons.mp hx with h1 | h1 <;> simp [h1])) v hv

theorem mergePass_chain (l : List Int) (h : l.Chain' (· ≠ ·)) : mergePass l = (l, 0) := by
  induction l using mergePass.induct with
  | case1 => simp [mergePass]
  | case2 a => simp [mergePass]
  | case3 a rest ih =>
    exfalso
    exact (List.chain'_cons.mp h).1 rfl
  | case4 a b rest hne ih =>
    have h2 := ih (List.chain'_cons.mp h).2
    simp [mergePass, if_neg hne, h2]

theorem mergePass_mem (l : List Int) :
    ∀ v ∈ (mergePass l).1, v ∈ l ∨ ∃ u ∈ l, v = 2 * u := by
  induction l using mergePass.induct with
  | case1 => simp [mergePass]
  | case2 a => simp [mergePass]
  | case3 a rest ih =>
    intro v hv
    simp only [mergePass, if_pos rfl] at hv
    rcases List.mem_cons.mp hv with hv | hv
    · right; exact ⟨a, by simp, hv⟩
    · rcases ih v hv with h1 | ⟨u, hu, he⟩
      · left; simp [h1]
      · right; exact ⟨u, by simp [hu], he⟩
  | case4 a b rest hne ih =>
    intro v hv
    simp only [mergePass, if_neg hne] at hv
    rcases List.mem_cons.mp hv with hv | hv
    · left; simp [hv]
    · rcases ih v hv with h1 | ⟨u, hu, he⟩
      · left; exact List.mem_cons_of_mem a h1
      · right; exact ⟨u, List.mem_cons_of_mem a hu, he⟩

theorem mergePass_exists_ge (l : List Int) (hpos : ∀ x ∈ l, 0 ≤ x) :
    ∀ v ∈ l, ∃ w ∈ (mergePass l).1, v ≤ w := by
  induction l using mergePass.induct with
  | case1 => simp [mergePass]
  | case2 a => intro v hv; exact ⟨v, by simp [mergePass, List.eq_of_mem_singleton hv], le_refl v⟩
  | case3 a rest ih =>
    intro v hv
    have ha : 0 ≤ a := hpos a (by simp)
    rcases List.mem_cons.mp hv with hv | hv
    · exact ⟨2 * a, by simp [mergePass], by omega⟩
    · rcases List.mem_cons.mp hv with hv | hv
      · exact ⟨2 * a, by simp [mergePass], by subst hv; omega⟩
      · rcases ih (fun x hx => hpos x (by simp [hx])) v hv with ⟨w, hw, hle⟩
        exact ⟨w, by simp [mergePass, hw], hle⟩
  | case4 a b rest hne ih =>
    intro v hv
    rcases List.mem_cons.mp hv with hv | hv
    · exact ⟨a, by simp [mergePass, if_neg hne, hv], by simp [hv]⟩
    · rcases ih (fun x hx => hpos x (List.mem_cons_of_mem a hx)) v hv with ⟨w, hw, hle⟩
      exact ⟨w, by simp [mergePass, if_neg hne]; right; exact hw, hle⟩

theorem mergePass_even (l : List Int) (h : ∀ x ∈ l, x % 2 = 0) :
    ∀ v ∈ (mergePass l).1, v % 2 = 0 := by
  intro v hv
  rcases mergePass_mem l v hv with h1 | ⟨u, hu, he⟩
  · exact h v h1
  · subst he; omega

/-! ### Lemmas about the zero-stripping step -/

theorem strippedLine_nonzero (t : List Int) (r : Bool) :
    ∀ x ∈ strippedLine t r, x ≠ 0 := by
  intro x hx
  rcases r with _ | _ <;>
    · simp only [strippedLine] at hx
      simpa using (List.of_mem_filter hx)

theorem strippedLine_subset (t : List Int) (r : Bool) :
    ∀ x ∈ strippedLine t r, x ∈ t := by
  intro x hx
  rcases r with _ | _
  · exact List.mem_of_mem_filter hx
  · simpa using List.mem_reverse.mp (List.mem_of_mem_filter hx)

theorem strippedLine_length (t : List Int) (r : Bool) :
    (strippedLine t r).length = t.countP (fun z => z != 0) := by
  rcases r with _ | _
  · simp [strippedLine, List.countP_eq_length_filter]
  · simp [strippedLine, List.countP_eq_length_filter, List.filter_reverse]

theorem strippedLine_length_le (t : List Int) (r : Bool) :
    (strippedLine t r).length ≤ t.length := by
  rcases r with _ | _
  · exact List.length_filter_le _ _
  · simpa [strippedLine] using List.length_filter_le (fun z => z != 0) t.reverse

theorem strippedLine_of_nonzero (t : List Int) (h : ∀ x ∈ t, x ≠ 0) :
    strippedLine t false = t ∧ strippedLine t true = t.reverse := by
  constructor
  · simp only [strippedLine, Bool.false_eq_true, if_neg]
    exact List.filter_eq_self.mpr (fun a ha => by simpa using h a ha)
  · simp only [strippedLine, if_pos rfl]
    exact List.filter_eq_self.mpr (fun a ha => by simpa using h a (List.mem_reverse.mp ha))

/-! ### Lemmas about `combine_tiles` -/

theorem countP_reverse_eq (p : Int → Bool) (l : List Int) :
    l.reverse.countP p = l.countP p := by
  simp [List.countP_eq_length_filter, List.filter_reverse]

theorem combine_tiles_false (t : List Int) :
    combine_tiles t false =
      ((mergePass (strippedLine t false)).1 ++
         List.replicate (COLS - (mergePass (strippedLine t false)).1.length) 0,
       (mergePass (strippedLine t false)).2,
       t != (mergePass (strippedLine t false)).1 ++
         List.replicate (COLS - (mergePass (strippedLine t false)).1.length) 0) := rfl

theorem combine_tiles_true (t : List Int) :
    combine_tiles t true =
      (((mergePass (strippedLine t true)).1 ++
          List.replicate (COLS - (mergePass (strippedLine t true)).1.length) 0).reverse,
       (mergePass (strippedLine t true)).2,
       t != ((mergePass (strippedLine t true)).1 ++
          List.replicate (COLS - (mergePass (strippedLine t true)).1.length) 0).reverse) := rfl

theorem countP_zero_add_nonzero (t : List Int) :
    t.countP (fun z => z == 0) + t.countP (fun z => z != 0) = t.length := by
  induction t with
  | nil => simp
  | cons a t ih =>
    by_cases ha : a = 0 <;> simp [List.countP_cons, ha] <;> omega

theorem combine_snd (t : List Int) (r : Bool) :
    (combine_tiles t r).2.1 = (mergePass (strippedLine t r)).2 := by
  rcases r with _ | _
  · rw [combine_tiles_false]
  · rw [combine_tiles_true]

theorem combine_changed (t : List Int) (r : Bool) :
    (combine_tiles t r).2.2 = (t != (combine_tiles t r).1) := by
  rcases r with _ | _
  · rw [combine_tiles_false]
  · rw [combine_tiles_true]

theorem combine_fst_length_eq (t : List Int) (r : Bool) :
    ((combine_tiles t r).1).length =
      (mergePass (strippedLine t r)).1.length +
        (COLS - (mergePass (strippedLine t r)).1.length) := by
  rcases r with _ | _
  · rw [combine_tiles_false]; simp
  · rw [combine_tiles_true]; simp; omega

theorem combine_length (t : List Int) (r : Bool) (h : t.length = 4) :
    ((combine_tiles t r).1).length = 4 := by
  have h1 := mergePass_length_le (strippedLine t r)
  have h2 := strippedLine_length_le t r
  rw [combine_fst_length_eq]
  simp only [COLS]
  omega

theorem combine_countP_zero (t : List Int) (r : Bool) :
    ((combine_tiles t r).1).countP (fun z => z == 0) =
      COLS - (mergePass (strippedLine t r)).1.length := by
  have hnz := mergePass_nonzero _ (strippedLine_nonzero t r)
  have hm : ((mergePass (strippedLine t r)).1).countP (fun z => z == 0) = 0 :=
    List.countP_eq_zero.mpr (fun a ha => by simpa using hnz a ha)
  have hall : ∀ a ∈ List.replicate (COLS - (mergePass (strippedLine t r)).1.length) (0 : Int),
      ((fun z : Int => z == 0) a) = true := fun a ha => by simp [List.eq_of_mem_replicate ha]
  have hrep := List.countP_eq_length.mpr hall
  rcases r with _ | _
  · rw [combine_tiles_false]
    simp only [List.countP_append, hm, hrep]
    simp
  · rw [combine_tiles_true]
    simp only [countP_reverse_eq, List.countP_append, hm, hrep]
    simp

theorem line_countP_zero (t : List Int) (r : Bool) :
    t.countP (fun z => z == 0) = t.length - (strippedLine t r).length := by
  have h := countP_zero_add_nonzero t
  rw [strippedLine_length]
  omega

theorem combine_zeros_ge (t : List Int) (r : Bool) (hlen : t.length = 4) :
    t.countP (fun z => z == 0) ≤ ((combine_tiles t r).1).countP (fun z => z == 0) := by
  rw [combine_countP_zero, line_countP_zero t r]
  have h1 := mergePass_length_le (strippedLine t r)
  have h2 := strippedLine_length_le t r
  simp only [COLS]
  omega

theorem combine_changed_false (t : List Int) (r : Bool) (v : List Int) (s : Int)
    (h : combine_tiles t r = (v, s, false)) : v = t ∧ s = 0 := by
  have hv : (combine_tiles t r).1 = v := by rw [h]
  have hs : (combine_tiles t r).2.1 = s := by rw [h]
  have hc : (combine_tiles t r).2.2 = false := by rw [h]
  rw [combine_changed] at hc
  have hvt : t = (combine_tiles t r).1 := by simpa using hc
  refine ⟨by rw [← hv, ← hvt], ?_⟩
  have hlen : t.length = ((combine_tiles t r).1).length := by rw [← hvt]
  rw [combine_fst_length_eq] at hlen
  have hcnt : t.countP (fun z => z == 0) = ((combine_tiles t r).1).countP (fun z => z == 0) := by
    rw [← hvt]
  rw [combine_countP_zero, line_countP_zero t r] at hcnt
  have h1 := mergePass_length_le (strippedLine t r)
  have h2 := strippedLine_length_le t r
  have heq : (mergePass (strippedLine t r)).1.length = (strippedLine t r).length := by
    simp only [COLS] at hlen hcnt
    omega
  have := mergePass_eq_of_length _ heq
  rw [← hs, combine_snd, this]

theorem combine_id_core (t : List Int) (r : Bool) (hlen : t.length = 4)
    (hf : strippedLine t r = if r then t.reverse else t)
    (hmp : mergePass (strippedLine t r) = (strippedLine t r, 0)) :
    combine_tiles t r = (t, 0, false) := by
  rcases r with _ | _
  · rw [combine_tiles_false]
    simp at hf
    rw [hmp, hf]
    simp [COLS, hlen]
  · rw [combine_tiles_true]
    simp at hf
    rw [hmp, hf]
    simp [COLS, hlen]

theorem combine_nopair (t : List Int) (r : Bool) (hlen : t.length = 4)
    (hnz : ∀ x ∈ t, x ≠ 0) (hch : t.Chain' (· ≠ ·)) :
    combine_tiles t r = (t, 0, false) := by
  obtain ⟨hf, htr⟩ := strippedLine_of_nonzero t hnz
  refine combine_id_core t r hlen ?_ ?_
  · rcases r with _ | _ <;> simp [hf, htr]
  · rcases r with _ | _
    · rw [hf]; exact mergePass_chain t hch
    · rw [htr]
      refine mergePass_chain _ ?_
      rw [List.chain'_reverse]
      exact hch.imp (fun a b hab => Ne.symm hab)

theorem combine_fst_mem_cases (t : List Int) (r : Bool) :
    ∀ v ∈ (combine_tiles t r).1, v ∈ (mergePass (strippedLine t r)).1 ∨ v = 0 := by
  intro v hv
  rcases r with _ | _
  · rw [combine_tiles_false] at hv
    rcases List.mem_append.mp hv with hv | hv
    · exact Or.inl hv
    · exact Or.inr (List.eq_of_mem_replicate hv)
  · rw [combine_tiles_true] at hv
    rcases List.mem_append.mp (List.mem_reverse.mp hv) with hv | hv
    · exact Or.inl hv
    · exact Or.inr (List.eq_of_mem_replicate hv)

theorem mem_combine_fst_of_mem_merge (t : List Int) (r : Bool) :
    ∀ v ∈ (mergePass (strippedLine t r)).1, v ∈ (combine_tiles t r).1 := by
  intro v hv
  rcases r with _ | _
  · rw [combine_tiles_false]
    exact List.mem_append.mpr (Or.inl hv)
  · rw [combine_tiles_true]
    exact List.mem_reverse.mpr (List.mem_append.mpr (Or.inl hv))

theorem combine_mem (t : List Int) (r : Bool) :
    ∀ v ∈ (combine_tiles t r).1, v = 0 ∨ v ∈ t ∨ ∃ u ∈ t, v = 2 * u := by
  intro v hv
  rcases combine_fst_mem_cases t r v hv with hv | hv
  · rcases mergePass_mem _ v hv with h1 | ⟨u, hu, he⟩
    · exact Or.inr (Or.inl (strippedLine_subset t r v h1))
    · exact Or.inr (Or.inr ⟨u, strippedLine_subset t r u hu, he⟩)
  · exact Or.inl hv

theorem combine_even (t : List Int) (r : Bool) (h : ∀ x ∈ t, x % 2 = 0) :
    ∀ v ∈ (combine_tiles t r).1, v % 2 = 0 := by
  intro v hv
  rcases combine_mem t r v hv with hv | hv | ⟨u, hu, he⟩
  · simp [hv]
  · exact h v hv
  · subst he; omega

theorem combine_exists_ge (t : List Int) (r : Bool) (hlen : t.length = 4)
    (hpos : ∀ x ∈ t, 0 ≤ x) :
    ∀ v ∈ t, ∃ w ∈ (combine_tiles t r).1, v ≤ w := by
  intro v hv
  by_cases hz : v = 0
  · have hne : (combine_tiles t r).1 ≠ [] := by
      intro hc
      have := combine_length t r hlen
      rw [hc] at this
      simp at this
    obtain ⟨w, hw⟩ := List.exists_mem_of_ne_nil _ hne
    refine ⟨w, hw, ?_⟩
    subst hz
    rcases combine_mem t r w hw with h1 | h1 | ⟨u, hu, he⟩
    · simp [h1]
    · exact hpos w h1
    · have := hpos u hu
      omega
  · have hvs : v ∈ strippedLine t r := by
      rcases r with _ | _
      · exact List.mem_filter.mpr ⟨hv, by simpa using hz⟩
      · exact List.mem_filter.mpr ⟨List.mem_reverse.mpr hv, by simpa using hz⟩
    obtain ⟨w, hw, hle⟩ :=
      mergePass_exists_ge _ (fun x hx => hpos x (strippedLine_subset t r x hx)) v hvs
    exact ⟨w, mem_combine_fst_of_mem_merge t r w hw, hle⟩

theorem combine_changed_imp_zero (t : List Int) (r : Bool) (hlen : t.length = 4)
    (h : (combine_tiles t r).2.2 = true) :
    0 < ((combine_tiles t r).1).countP (fun z => z == 0) := by
  rw [combine_countP_zero]
  have h1 := mergePass_length_le (strippedLine t r)
  have h2 := strippedLine_length_le t r
  rcases Nat.lt_or_ge (mergePass (strippedLine t r)).1.length COLS with hlt | hge
  · omega
  · exfalso
    have hml : (mergePass (strippedLine t r)).1.length = (strippedLine t r).length := by
      simp only [COLS] at hge
      omega
    have hsl : (strippedLine t r).length = t.length := by
      simp only [COLS] at hge
      omega
    have hmp := mergePass_eq_of_length _ hml
    have hnz : ∀ x ∈ t, x ≠ 0 := by
      intro x hx hx0
      have hcnt := strippedLine_length t r
      have hsum := countP_zero_add_nonzero t
      have hpos : 0 < t.countP (fun z => z == 0) :=
        List.countP_pos_iff.mpr ⟨x, hx, by simp [hx0]⟩
      omega
    obtain ⟨hf, htr⟩ := strippedLine_of_nonzero t hnz
    have hid : combine_tiles t r = (t, 0, false) := by
      refine combine_id_core t r hlen ?_ hmp
      rcases r with _ | _ <;> simp [hf, htr]
    rw [hid] at h
    simp at h

/-! ### Grid plumbing: destructuring, write-back, and the move bridges -/

theorem exists_four {α : Type} (l : List α) (h : l.length = 4) :
    ∃ a b c d, l = [a, b, c, d] := by
  rcases l with _ | ⟨a, l⟩; · simp at h
  rcases l with _ | ⟨b, l⟩; · simp at h
  rcases l with _ | ⟨c, l⟩; · simp at h
  rcases l with _ | ⟨d, l⟩; · simp at h
  rcases l with _ | ⟨e, l⟩
  · exact ⟨a, b, c, d, rfl⟩
  · simp at h

theorem grid_cells (g : Grid) (h : wellFormed g) :
    ∃ c00 c01 c02 c03 c10 c11 c12 c13 c20 c21 c22 c23 c30 c31 c32 c33 : Int,
      g = [[c00, c01, c02, c03], [c10, c11, c12, c13],
           [c20, c21, c22, c23], [c30, c31, c32, c33]] := by
  obtain ⟨r0, r1, r2, r3, hg⟩ := exists_four g h.1
  subst hg
  obtain ⟨a0, a1, a2, a3, h0⟩ := exists_four r0 (h.2 r0 (by simp))
  obtain ⟨b0, b1, b2, b3, h1⟩ := exists_four r1 (h.2 r1 (by simp))
  obtain ⟨d0, d1, d2, d3, h2⟩ := exists_four r2 (h.2 r2 (by simp))
  obtain ⟨e0, e1, e2, e3, h3⟩ := exists_four r3 (h.2 r3 (by simp))
  subst h0; subst h1; subst h2; subst h3
  exact ⟨a0, a1, a2, a3, b0, b1, b2, b3, d0, d1, d2, d3, e0, e1, e2, e3, rfl⟩

theorem powGrid_even (g : Grid) (h : powGrid g) :
    ∀ row ∈ g, ∀ z ∈ row, z % 2 = 0 := by
  intro row hr z hz
  rcases h row hr z hz with h0 | ⟨k, hk, he⟩
  · simp [h0]
  · subst he
    rcases k with _ | k
    · omega
    · rw [pow_succ]
      exact Int.mul_emod_left _ _

theorem writeLine_row (r0 r1 r2 r3 : List Int) (mi : Nat) (hmi : mi < 4)
    (hrow : ([r0, r1, r2, r3].getD mi []).length = 4)
    (v0 v1 v2 v3 : Int) (h0 : v0 % 2 = 0) (h1 : v1 % 2 = 0) (h2 : v2 % 2 = 0)
    (h3 : v3 % 2 = 0) :
    writeLine false mi [r0, r1, r2, r3] 0 [v0, v1, v2, v3] =
      .ok ([r0, r1, r2, r3].set mi [v0, v1, v2, v3]) := by
  interval_cases mi <;>
  · simp only [List.getD] at hrow
    obtain ⟨a, b, c, d, hr⟩ := exists_four _ (by simpa using hrow)
    subst hr
    simp [writeLine, set_tile, COLS, ROWS, h0, h1, h2, h3]

theorem writeLine_col (c00 c01 c02 c03 c10 c11 c12 c13 c20 c21 c22 c23 c30 c31 c32 c33 : Int)
    (mi : Nat) (hmi : mi < 4)
    (v0 v1 v2 v3 : Int) (h0 : v0 % 2 = 0) (h1 : v1 % 2 = 0) (h2 : v2 % 2 = 0)
    (h3 : v3 % 2 = 0) :
    writeLine true mi [[c00, c01, c02, c03], [c10, c11, c12, c13],
      [c20, c21, c22, c23], [c30, c31, c32, c33]] 0 [v0, v1, v2, v3] =
      .ok [[c00, c01, c02, c03].set mi v0, [c10, c11, c12, c13].set mi v1,
        [c20, c21, c22, c23].set mi v2, [c30, c31, c32, c33].set mi v3] := by
  interval_cases mi <;>
    simp [writeLine, set_tile, COLS, ROWS, h0, h1, h2, h3]

theorem combine_out (t : List Int) (r : Bool) (hlen : t.length = 4)
    (he : ∀ z ∈ t, z % 2 = 0) :
    ∃ w0 w1 w2 w3 s m, combine_tiles t r = ([w0, w1, w2, w3], s, m) ∧
      w0 % 2 = 0 ∧ w1 % 2 = 0 ∧ w2 % 2 = 0 ∧ w3 % 2 = 0 := by
  obtain ⟨w0, w1, w2, w3, hw⟩ := exists_four _ (combine_length t r hlen)
  refine ⟨w0, w1, w2, w3, (combine_tiles t r).2.1, (combine_tiles t r).2.2, ?_, ?_, ?_, ?_, ?_⟩
  · rw [← hw]
  · exact combine_even t r he w0 (by rw [hw]; simp)
  · exact combine_even t r he w1 (by rw [hw]; simp)
  · exact combine_even t r he w2 (by rw [hw]; simp)
  · exact combine_even t r he w3 (by rw [hw]; simp)

theorem move_tiles_horiz (d : Direction) (hd : isVertical d = false)
    (r0 r1 r2 r3 : List Int)
    (hl0 : r0.length = 4) (hl1 : r1.length = 4) (hl2 : r2.length = 4) (hl3 : r3.length = 4)
    (he0 : ∀ z ∈ r0, z % 2 = 0) (he1 : ∀ z ∈ r1, z % 2 = 0)
    (he2 : ∀ z ∈ r2, z % 2 = 0) (he3 : ∀ z ∈ r3, z % 2 = 0) :
    move_tiles [r0, r1, r2, r3] d =
      .ok ([(combine_tiles r0 (combineRight d)).1, (combine_tiles r1 (combineRight d)).1,
            (combine_tiles r2 (combineRight d)).1, (combine_tiles r3 (combineRight d)).1],
           (combine_tiles r0 (combineRight d)).2.1 + (combine_tiles r1 (combineRight d)).2.1 +
             (combine_tiles r2 (combineRight d)).2.1 + (combine_tiles r3 (combineRight d)).2.1,
           (((combine_tiles r0 (combineRight d)).2.2 || (combine_tiles r1 (combineRight d)).2.2) ||
             (combine_tiles r2 (combineRight d)).2.2) || (combine_tiles r3 (combineRight d)).2.2) := by
  obtain ⟨v00, v01, v02, v03, s0, m0, hc0, e00, e01, e02, e03⟩ :=
    combine_out r0 (combineRight d) hl0 he0
  obtain ⟨v10, v11, v12, v13, s1, m1, hc1, e10, e11, e12, e13⟩ :=
    combine_out r1 (combineRight d) hl1 he1
  obtain ⟨v20, v21, v22, v23, s2, m2, hc2, e20, e21, e22, e23⟩ :=
    combine_out r2 (combineRight d) hl2 he2
  obtain ⟨v30, v31, v32, v33, s3, m3, hc3, e30, e31, e32, e33⟩ :=
    combine_out r3 (combineRight d) hl3 he3
  have w0 := writeLine_row r0 r1 r2 r3 0 (by omega) (by simpa using hl0)
    v00 v01 v02 v03 e00 e01 e02 e03
  have w1 := writeLine_row [v00, v01, v02, v03] r1 r2 r3 1 (by omega) (by simpa using hl1)
    v10 v11 v12 v13 e10 e11 e12 e13
  have w2 := writeLine_row [v00, v01, v02, v03] [v10, v11, v12, v13] r2 r3 2 (by omega)
    (by simpa using hl2) v20 v21 v22 v23 e20 e21 e22 e23
  have w3 := writeLine_row [v00, v01, v02, v03] [v10, v11, v12, v13] [v20, v21, v22, v23] r3 3
    (by omega) (by simpa using hl3) v30 v31 v32 v33 e30 e31 e32 e33
  simp [move_tiles, hd, moveLoop, hc0, hc1, hc2, hc3, w0, w1, w2, w3, List.set]

theorem move_tiles_vert (d : Direction) (hd : isVertical d = true)
    (c00 c01 c02 c03 c10 c11 c12 c13 c20 c21 c22 c23 c30 c31 c32 c33 : Int)
    (he : ∀ row ∈ ([[c00, c01, c02, c03], [c10, c11, c12, c13],
        [c20, c21, c22, c23], [c30, c31, c32, c33]] : Grid), ∀ z ∈ row, z % 2 = 0) :
    ∃ q00 q01 q02 q03 q10 q11 q12 q13 q20 q21 q22 q23 q30 q31 q32 q33 : Int,
      move_tiles [[c00, c01, c02, c03], [c10, c11, c12, c13],
          [c20, c21, c22, c23], [c30, c31, c32, c33]] d =
        .ok ([[q00, q01, q02, q03], [q10, q11, q12, q13],
              [q20, q21, q22, q23], [q30, q31, q32, q33]],
             (combine_tiles [c00, c10, c20, c30] (combineRight d)).2.1 +
               (combine_tiles [c01, c11, c21, c31] (combineRight d)).2.1 +
               (combine_tiles [c02, c12, c22, c32] (combineRight d)).2.1 +
               (combine_tiles [c03, c13, c23, c33] (combineRight d)).2.1,
             (((combine_tiles [c00, c10, c20, c30] (combineRight d)).2.2 ||
                 (combine_tiles [c01, c11, c21, c31] (combineRight d)).2.2) ||
               (combine_tiles [c02, c12, c22, c32] (combineRight d)).2.2) ||
               (combine_tiles [c03, c13, c23, c33] (combineRight d)).2.2) ∧
      (combine_tiles [c00, c10, c20, c30] (combineRight d)).1 = [q00, q10, q20, q30] ∧
      (combine_tiles [c01, c11, c21, c31] (combineRight d)).1 = [q01, q11, q21, q31] ∧
      (combine_tiles [c02, c12, c22, c32] (combineRight d)).1 = [q02, q12, q22, q32] ∧
      (combine_tiles [c03, c13, c23, c33] (combineRight d)).1 = [q03, q13, q23, q33] := by
  have hec : ∀ z ∈ ([c00, c10, c20, c30] : List Int), z % 2 = 0 := by
    intro z hz
    fin_cases hz
    · exact he [c00, c01, c02, c03] (by simp) c00 (by simp)
    · exact he [c10, c11, c12, c13] (by simp) c10 (by simp)
    · exact he [c20, c21, c22, c23] (by simp) c20 (by simp)
    · exact he [c30, c31, c32, c33] (by simp) c30 (by simp)
  have hec1 : ∀ z ∈ ([c01, c11, c21, c31] : List Int), z % 2 = 0 := by
    intro z hz
    fin_cases hz
    · exact he [c00, c01, c02, c03] (by simp) c01 (by simp)
    · exact he [c10, c11, c12, c13] (by simp) c11 (by simp)
    · exact he [c20, c21, c22, c23] (by simp) c21 (by simp)
    · exact he [c30, c31, c32, c33] (by simp) c31 (by simp)
  have hec2 : ∀ z ∈ ([c02, c12, c22, c32] : List Int), z % 2 = 0 := by
    intro z hz
    fin_cases hz
    · exact he [c00, c01, c02, c03] (by simp) c02 (by simp)
    · exact he [c10, c11, c12, c13] (by simp) c12 (by simp)
    · exact he [c20, c21, c22, c23] (by simp) c22 (by simp)
    · exact he [c30, c31, c32, c33] (by simp) c32 (by simp)
  have hec3 : ∀ z ∈ ([c03, c13, c23, c33] : List Int), z % 2 = 0 := by
    intro z hz
    fin_cases hz
    · exact he [c00, c01, c02, c03] (by simp) c03 (by simp)
    · exact he [c10, c11, c12, c13] (by simp) c13 (by simp)
    · exact he [c20, c21, c22, c23] (by simp) c23 (by simp)
    · exact he [c30, c31, c32, c33] (by simp) c33 (by simp)
  obtain ⟨q00, q10, q20, q30, s0, m0, hc0, e00, e10, e20, e30⟩ :=
    combine_out [c00, c10, c20, c30] (combineRight d) (by simp) hec
  obtain ⟨q01, q11, q21, q31, s1, m1, hc1, e01, e11, e21, e31⟩ :=
    combine_out [c01, c11, c21, c31] (combineRight d) (by simp) hec1
  obtain ⟨q02, q12, q22, q32, s2, m2, hc2, e02, e12, e22, e32⟩ :=
    combine_out [c02, c12, c22, c32] (combineRight d) (by simp) hec2
  obtain ⟨q03, q13, q23, q33, s3, m3, hc3, e03, e13, e23, e33⟩ :=
    combine_out [c03, c13, c23, c33] (combineRight d) (by simp) hec3
  refine ⟨q00, q01, q02, q03, q10, q11, q12, q13, q20, q21, q22, q23, q30, q31, q32, q33,
    ?_, by simp [hc0], by simp [hc1], by simp [hc2], by simp [hc3]⟩
  have htc : (List.range COLS).map
      (fun x => column [[c00, c01, c02, c03], [c10, c11, c12, c13],
        [c20, c21, c22, c23], [c30, c31, c32, c33]] x) =
      [[c00, c10, c20, c30], [c01, c11, c21, c31], [c02, c12, c22, c32],
       [c03, c13, c23, c33]] := rfl
  have w0 := writeLine_col c00 c01 c02 c03 c10 c11 c12 c13 c20 c21 c22 c23 c30 c31 c32 c33
    0 (by omega) q00 q10 q20 q30 e00 e10 e20 e30
  have w1 := writeLine_col q00 c01 c02 c03 q10 c11 c12 c13 q20 c21 c22 c23 q30 c31 c32 c33
    1 (by omega) q01 q11 q21 q31 e01 e11 e21 e31
  have w2 := writeLine_col q00 q01 c02 c03 q10 q11 c12 c13 q20 q21 c22 c23 q30 q31 c32 c33
    2 (by omega) q02 q12 q22 q32 e02 e12 e22 e32
  have w3 := writeLine_col q00 q01 q02 c03 q10 q11 q12 c13 q20 q21 q22 c23 q30 q31 q32 c33
    3 (by omega) q03 q13 q23 q33 e03 e13 e23 e33
  simp only [List.set] at w0 w1 w2 w3
  simp [move_tiles, hd, htc, moveLoop, hc0, hc1, hc2, hc3, w0, w1, w2, w3]

/-! ### Cell updates and the spawner -/

theorem getD_set_self {α : Type} (l : List α) :
    ∀ i, i < l.length → ∀ a d : α, (l.set i a).getD i d = a := by
  induction l with
  | nil => simp
  | cons x l ih =>
    intro i hi a d
    rcases i with _ | i
    · simp
    · simp only [List.set_cons_succ, List.getD_cons_succ]
      exact ih i (by simpa using hi) a d

theorem getD_set_ne {α : Type} (l : List α) :
    ∀ i j, i ≠ j → ∀ a d : α, (l.set i a).getD j d = l.getD j d := by
  induction l with
  | nil => simp
  | cons x l ih =>
    intro i j hij a d
    rcases i with _ | i <;> rcases j with _ | j
    · omega
    · simp
    · simp
    · simp only [List.set_cons_succ, List.getD_cons_succ]
      exact ih i j (by omega) a d

theorem set_tile_ok (g : Grid) (x y : Nat) (v : Int) (hv : v % 2 = 0)
    (hx : x < COLS) (hy : y < ROWS) :
    set_tile g x y v = .ok (g.set y ((g.getD y []).set x v)) := by
  simp [set_tile, hv, hx, hy]

theorem getCell_set_tile (g : Grid) (x y : Nat) (v : Int)
    (hy : y < g.length) (hx : x < (g.getD y []).length) :
    ∀ y' x', getCell (g.set y ((g.getD y []).set x v)) y' x' =
      if y' = y ∧ x' = x then v else getCell g y' x' := by
  intro y' x'
  by_cases hy' : y' = y
  · subst hy'
    unfold getCell
    rw [getD_set_self g y' hy]
    by_cases hx' : x' = x
    · subst hx'
      rw [getD_set_self _ x' hx]
      simp
    · rw [getD_set_ne _ x x' (fun hc => hx' hc.symm)]
      simp [hx']
  · unfold getCell
    rw [getD_set_ne g y y' (fun hc => hy' hc.symm)]
    simp [hy']

theorem mem_emptyCells (g : Grid) (x y : Nat) :
    (x, y) ∈ emptyCells g ↔ y < ROWS ∧ x < COLS ∧ getCell g y x = 0 := by
  constructor
  · intro h
    obtain ⟨l, hl, hmem⟩ := List.mem_flatten.mp h
    obtain ⟨y', hy', rfl⟩ := List.mem_map.mp hl
    obtain ⟨x', hx'mem, hxy⟩ := List.mem_map.mp hmem
    obtain ⟨hx'r, hz⟩ := List.mem_filter.mp hx'mem
    injection hxy with hx1 hy1
    subst hx1; subst hy1
    exact ⟨List.mem_range.mp hy', List.mem_range.mp hx'r, by simpa using hz⟩
  · rintro ⟨hy, hx, hz⟩
    refine List.mem_flatten.mpr ⟨_, List.mem_map.mpr ⟨y, List.mem_range.mpr hy, rfl⟩, ?_⟩
    exact List.mem_map.mpr ⟨x, List.mem_filter.mpr ⟨List.mem_range.mpr hx, by simpa using hz⟩, rfl⟩

theorem wf_row_length (g : Grid) (hw : wellFormed g) (y : Nat) (hy : y < 4) :
    (g.getD y []).length = 4 := by
  obtain ⟨c00, c01, c02, c03, c10, c11, c12, c13, c20, c21, c22, c23,
    c30, c31, c32, c33, hg⟩ := grid_cells g hw
  subst hg
  interval_cases y <;> simp

theorem row_filter_count (g : Grid) (y : Nat) (hlen : (g.getD y []).length = 4) :
    ((List.range COLS).filter (fun x => getCell g y x == 0)).length =
      (g.getD y []).countP (fun z => z == 0) := by
  obtain ⟨a, b, c, d, hr⟩ := exists_four _ hlen
  simp only [getCell, hr]
  by_cases ha : a = 0 <;> by_cases hb : b = 0 <;> by_cases hc : c = 0 <;> by_cases hd : d = 0 <;>
    simp [COLS, List.range_succ, List.countP_cons, ha, hb, hc, hd]

theorem emptyCells_length (g : Grid) (hw : wellFormed g) :
    (emptyCells g).length =
      (g.getD 0 []).countP (fun z => z == 0) + (g.getD 1 []).countP (fun z => z == 0) +
        (g.getD 2 []).countP (fun z => z == 0) + (g.getD 3 []).countP (fun z => z == 0) := by
  have h0 := row_filter_count g 0 (wf_row_length g hw 0 (by omega))
  have h1 := row_filter_count g 1 (wf_row_length g hw 1 (by omega))
  have h2 := row_filter_count g 2 (wf_row_length g hw 2 (by omega))
  have h3 := row_filter_count g 3 (wf_row_length g hw 3 (by omega))
  simp only [emptyCells, ROWS, List.length_flatten, List.map_map]
  simp [List.range_succ, Function.comp_def, h0, h1, h2, h3]
  omega

theorem getD_mem_of_lt {α : Type} (l : List α) :
    ∀ i, i < l.length → ∀ d : α, l.getD i d ∈ l := by
  induction l with
  | nil => simp
  | cons x l ih =>
    intro i hi d
    rcases i with _ | i
    · simp
    · simp only [List.getD_cons_succ]
      exact List.mem_cons_of_mem _ (ih i (by simpa using hi) d)

theorem place_none (g : Grid) (draw pick : Nat) (h : emptyCells g = []) :
    place_random_tile g draw pick = .ok (g, false) := by
  simp [place_random_tile, h]

theorem place_spec (g : Grid) (draw pick : Nat) (hne : emptyCells g ≠ []) :
    ∃ x y, (x, y) ∈ emptyCells g ∧
      place_random_tile g draw pick =
        .ok (g.set y ((g.getD y []).set x (if draw > 0 then 2 else 4)),
             ((emptyCells g).length - 1 != 0)) := by
  have hlen : 0 < (emptyCells g).length := List.length_pos.mpr hne
  have hmod : pick % (emptyCells g).length < (emptyCells g).length := Nat.mod_lt _ hlen
  have hcm : (emptyCells g).getD (pick % (emptyCells g).length) (0, 0) ∈ emptyCells g :=
    getD_mem_of_lt _ _ hmod _
  obtain ⟨cx, cy, hceq⟩ : ∃ cx cy,
      (emptyCells g).getD (pick % (emptyCells g).length) (0, 0) = (cx, cy) := ⟨_, _, rfl⟩
  rw [hceq] at hcm
  obtain ⟨hy, hx, hz⟩ := (mem_emptyCells g cx cy).mp hcm
  have hev : (if draw > 0 then (2 : Int) else 4) % 2 = 0 := by split <;> norm_num
  refine ⟨cx, cy, hcm, ?_⟩
  simp only [place_random_tile, if_neg hne, hceq]
  rw [set_tile_ok _ _ _ _ hev hx hy]

theorem make_move_nomove (g : Grid) (d : Direction) (draw pick : Nat) (g1 : Grid) (s : Int)
    (h : move_tiles g d = .ok (g1, s, false)) :
    make_move g d draw pick = .ok (g1, s, false) := by
  simp [make_move, h]

theorem make_move_moved (g : Grid) (d : Direction) (draw pick : Nat) (g1 : Grid) (s : Int)
    (g2 : Grid) (b : Bool) (h : move_tiles g d = .ok (g1, s, true))
    (hp : place_random_tile g1 draw pick = .ok (g2, b)) :
    make_move g d draw pick = .ok (g2, s, if b then false else check_game_over g2) := by
  simp only [make_move, h, hp]
  rcases b with _ | _ <;> simp

theorem combine_eta_false (t : List Int) (r : Bool) (h : (combine_tiles t r).2.2 = false) :
    combine_tiles t r = ((combine_tiles t r).1, (combine_tiles t r).2.1, false) := by
  rw [← h]

theorem combine_nochange (t : List Int) (r : Bool) (h : (combine_tiles t r).2.2 = false) :
    (combine_tiles t r).1 = t ∧ (combine_tiles t r).2.1 = 0 :=
  combine_changed_false t r _ _ (combine_eta_false t r h)

theorem move_tiles_nomove (g : Grid) (d : Direction) (g1 : Grid) (s : Int)
    (hw : wellFormed g) (he : ∀ row ∈ g, ∀ z ∈ row, z % 2 = 0)
    (h : move_tiles g d = .ok (g1, s, false)) : g1 = g ∧ s = 0 := by
  rcases hv : isVertical d with _ | _
  · obtain ⟨r0, r1, r2, r3, hg⟩ := exists_four g hw.1
    subst hg
    have hb := move_tiles_horiz d hv r0 r1 r2 r3
      (hw.2 r0 (by simp)) (hw.2 r1 (by simp)) (hw.2 r2 (by simp)) (hw.2 r3 (by simp))
      (he r0 (by simp)) (he r1 (by simp)) (he r2 (by simp)) (he r3 (by simp))
    rw [h] at hb
    have hb' : ((g1, s, false) : Grid × Int × Bool) =
        ([(combine_tiles r0 (combineRight d)).1, (combine_tiles r1 (combineRight d)).1,
          (combine_tiles r2 (combineRight d)).1, (combine_tiles r3 (combineRight d)).1],
         (combine_tiles r0 (combineRight d)).2.1 + (combine_tiles r1 (combineRight d)).2.1 +
           (combine_tiles r2 (combineRight d)).2.1 + (combine_tiles r3 (combineRight d)).2.1,
         (((combine_tiles r0 (combineRight d)).2.2 || (combine_tiles r1 (combineRight d)).2.2) ||
           (combine_tiles r2 (combineRight d)).2.2) ||
           (combine_tiles r3 (combineRight d)).2.2) := by
      injection hb
    have hbg := congrArg (fun p => p.1) hb'
    have hbs := congrArg (fun p => p.2.1) hb'
    have hbm := congrArg (fun p => p.2.2) hb'
    simp only at hbg hbs hbm
    have hms : (combine_tiles r0 (combineRight d)).2.2 = false ∧
        (combine_tiles r1 (combineRight d)).2.2 = false ∧
        (combine_tiles r2 (combineRight d)).2.2 = false ∧
        (combine_tiles r3 (combineRight d)).2.2 = false := by
      have := hbm.symm
      simp only [Bool.or_eq_false_iff] at this
      tauto
    obtain ⟨hw0, hs0⟩ := combine_nochange r0 (combineRight d) hms.1
    obtain ⟨hw1, hs1⟩ := combine_nochange r1 (combineRight d) hms.2.1
    obtain ⟨hw2, hs2⟩ := combine_nochange r2 (combineRight d) hms.2.2.1
    obtain ⟨hw3, hs3⟩ := combine_nochange r3 (combineRight d) hms.2.2.2
    constructor
    · rw [hbg, hw0, hw1, hw2, hw3]
    · rw [hbs, hs0, hs1, hs2, hs3]
      ring
  · obtain ⟨c00, c01, c02, c03, c10, c11, c12, c13, c20, c21, c22, c23,
      c30, c31, c32, c33, hg⟩ := grid_cells g hw
    subst hg
    obtain ⟨q00, q01, q02, q03, q10, q11, q12, q13, q20, q21, q22, q23, q30, q31, q32, q33,
      hmain, hcol0, hcol1, hcol2, hcol3⟩ :=
      move_tiles_vert d hv c00 c01 c02 c03 c10 c11 c12 c13 c20 c21 c22 c23 c30 c31 c32 c33 he
    rw [h] at hmain
    have hb' : ((g1, s, false) : Grid × Int × Bool) =
        ([[q00, q01, q02, q03], [q10, q11, q12, q13], [q20, q21, q22, q23],
          [q30, q31, q32, q33]],
         (combine_tiles [c00, c10, c20, c30] (combineRight d)).2.1 +
           (combine_tiles [c01, c11, c21, c31] (combineRight d)).2.1 +
           (combine_tiles [c02, c12, c22, c32] (combineRight d)).2.1 +
           (combine_tiles [c03, c13, c23, c33] (combineRight d)).2.1,
         (((combine_tiles [c00, c10, c20, c30] (combineRight d)).2.2 ||
             (combine_tiles [c01, c11, c21, c31] (combineRight d)).2.2) ||
           (combine_tiles [c02, c12, c22, c32] (combineRight d)).2.2) ||
           (combine_tiles [c03, c13, c23, c33] (combineRight d)).2.2) := by
      injection hmain
    have hbg := congrArg (fun p => p.1) hb'
    have hbs := congrArg (fun p => p.2.1) hb'
    have hbm := congrArg (fun p => p.2.2) hb'
    simp only at hbg hbs hbm
    have hms : (combine_tiles [c00, c10, c20, c30] (combineRight d)).2.2 = false ∧
        (combine_tiles [c01, c11, c21, c31] (combineRight d)).2.2 = false ∧
        (combine_tiles [c02, c12, c22, c32] (combineRight d)).2.2 = false ∧
        (combine_tiles [c03, c13, c23, c33] (combineRight d)).2.2 = false := by
      have := hbm.symm
      simp only [Bool.or_eq_false_iff] at this
      tauto
    obtain ⟨hw0, hs0⟩ := combine_nochange _ (combineRight d) hms.1
    obtain ⟨hw1, hs1⟩ := combine_nochange _ (combineRight d) hms.2.1
    obtain ⟨hw2, hs2⟩ := combine_nochange _ (combineRight d) hms.2.2.1
    obtain ⟨hw3, hs3⟩ := combine_nochange _ (combineRight d) hms.2.2.2
    have he0 : ([c00, c10, c20, c30] : List Int) = [q00, q10, q20, q30] :=
      (hw0.symm).trans hcol0
    have he1 : ([c01, c11, c21, c31] : List Int) = [q01, q11, q21, q31] :=
      (hw1.symm).trans hcol1
    have he2 : ([c02, c12, c22, c32] : List Int) = [q02, q12, q22, q32] :=
      (hw2.symm).trans hcol2
    have he3 : ([c03, c13, c23, c33] : List Int) = [q03, q13, q23, q33] :=
      (hw3.symm).trans hcol3
    obtain ⟨e00, e10, e20, e30⟩ : c00 = q00 ∧ c10 = q10 ∧ c20 = q20 ∧ c30 = q30 := by
      simpa using he0
    obtain ⟨e01, e11, e21, e31⟩ : c01 = q01 ∧ c11 = q11 ∧ c21 = q21 ∧ c31 = q31 := by
      simpa using he1
    obtain ⟨e02, e12, e22, e32⟩ : c02 = q02 ∧ c12 = q12 ∧ c22 = q22 ∧ c32 = q32 := by
      simpa using he2
    obtain ⟨e03, e13, e23, e33⟩ : c03 = q03 ∧ c13 = q13 ∧ c23 = q23 ∧ c33 = q33 := by
      simpa using he3
    constructor
    · rw [hbg, ← e00, ← e01, ← e02, ← e03, ← e10, ← e11, ← e12, ← e13,
        ← e20, ← e21, ← e22, ← e23, ← e30, ← e31, ← e32, ← e33]
    · rw [hbs, hs0, hs1, hs2, hs3]
      ring

theorem check_game_over_iff (g : Grid) : check_game_over g = true ↔ noAdjacentEqual g := by
  simp [check_game_over, noAdjacentEqual, List.all_eq_true, List.mem_range]

/-! ### Claim theorems -/

/-- C1: in a single combine pass a tile produced by a merge is never merged
again: combining `[2, 2, 2, 2]` toward the near end gives `[4, 4, 0, 0]`
with score 8 and `changed = true`, not a cascaded single 8. -/
theorem claim_C1 : combine_tiles [2, 2, 2, 2] false = ([4, 4, 0, 0], 8, true) := by
  decide

/-- C2: on a completely full 4×4 grid the game-over check returns true if
and only if no horizontally and no vertically adjacent pair of cells holds
equal values. -/
theorem claim_C2 (g : Grid) (hw : wellFormed g) (hf : fullGrid g) :
    check_game_over g = true ↔ noAdjacentEqual g :=
  check_game_over_iff g

/-- Witness for C2 at a concrete full grid with no equal adjacent pair. -/
theorem claim_C2_witness :
    check_game_over [[2, 4, 2, 4], [4, 2, 4, 2], [2, 4, 2, 4], [4, 2, 4, 2]] = true ↔
      noAdjacentEqual [[2, 4, 2, 4], [4, 2, 4, 2], [2, 4, 2, 4], [4, 2, 4, 2]] :=
  claim_C2 [[2, 4, 2, 4], [4, 2, 4, 2], [2, 4, 2, 4], [4, 2, 4, 2]] (by decide) (by decide)

/-- C7: a line of the grid (length 4) containing no zeros and no equal
adjacent pair is returned unchanged by `combine_tiles`, for either merge
direction, with score 0 and `changed = false`. -/
theorem claim_C7 (t : List Int) (r : Bool) (hlen : t.length = 4)
    (hnz : ∀ x ∈ t, x ≠ 0) (hch : t.Chain' (· ≠ ·)) :
    combine_tiles t r = (t, 0, false) :=
  combine_nopair t r hlen hnz hch

/-- Witness for C7 at a concrete zero-free line with no equal adjacent pair. -/
theorem claim_C7_witness : combine_tiles [2, 4, 2, 4] true = ([2, 4, 2, 4], 0, false) :=
  claim_C7 [2, 4, 2, 4] true (by decide) (by decide) (by norm_num [List.chain'_cons])

/-- C8: constructing a game from a caller-supplied grid fails with the
invalid-dimensions error exactly when the grid is not 4×4, and a 4×4 grid
is accepted unchanged as the session grid. -/
theorem claim_C8 (grid : Grid) :
    (game_init grid = .ok grid ↔ wellFormed grid) ∧
      ((∃ e, game_init grid = .error e) ↔ ¬wellFormed grid) := by
  by_cases hcond : (grid.length != ROWS || grid.any fun row => row.length != COLS) = true
  · have hg : game_init grid = .error "Invalid grid dimensions" := by
      rw [game_init, if_pos hcond]
    have hnw : ¬wellFormed grid := by
      simp only [Bool.or_eq_true, bne_iff_ne, List.any_eq_true] at hcond
      rintro ⟨h1, h2⟩
      rcases hcond with hc | ⟨row, hr, hc⟩
      · exact hc h1
      · exact hc (h2 row hr)
    constructor
    · rw [hg]; simp [hnw]
    · rw [hg]; simp [hnw]
  · have hg : game_init grid = .ok grid := by rw [game_init, if_neg hcond]
    have hwf : wellFormed grid := by
      simp only [Bool.or_eq_true, bne_iff_ne, List.any_eq_true, not_or, not_exists] at hcond
      push_neg at hcond
      exact ⟨hcond.1, hcond.2⟩
    constructor
    · rw [hg]; simp [hwf]
    · rw [hg]; simp [hwf]

/-- C3: when no tile can slide or merge in the requested direction
(`__move_tiles` reports `moved = false`), `make_move` returns score 0 and
`game over = false`, spawns nothing, and leaves every cell of the grid
exactly as it was (for any random draws). -/
theorem claim_C3 (g : Grid) (d : Direction) (draw pick : Nat) (g1 : Grid) (s : Int)
    (hw : wellFormed g) (hp : powGrid g)
    (h : move_tiles g d = .ok (g1, s, false)) :
    make_move g d draw pick = .ok (g, 0, false) := by
  obtain ⟨hg1, hs⟩ := move_tiles_nomove g d g1 s hw (powGrid_even g hp) h
  rw [hg1, hs] at h
  exact make_move_nomove g d draw pick g 0 h

/-- Witness for C3: a left move on a grid already packed to the left. -/
theorem claim_C3_witness :
    make_move [[2, 0, 0, 0], [0, 0, 0, 0], [0, 0, 0, 0], [0, 0, 0, 0]] Direction.LEFT 0 0 =
      .ok ([[2, 0, 0, 0], [0, 0, 0, 0], [0, 0, 0, 0], [0, 0, 0, 0]], 0, false) :=
  claim_C3 [[2, 0, 0, 0], [0, 0, 0, 0], [0, 0, 0, 0], [0, 0, 0, 0]] Direction.LEFT 0 0
    [[2, 0, 0, 0], [0, 0, 0, 0], [0, 0, 0, 0], [0, 0, 0, 0]] 0
    (by decide)
    (by
      intro row hr v hv
      simp only [List.mem_cons, List.not_mem_nil, or_false] at hr
      rcases hr with rfl | rfl | rfl | rfl <;>
        · simp only [List.mem_cons, List.not_mem_nil, or_false] at hv
          rcases hv with rfl | rfl | rfl | rfl <;>
            first
              | exact Or.inl rfl
              | exact Or.inr ⟨1, Nat.one_pos, by norm_num⟩)
    (by rfl)

/-- C9: on a completely full grid with no equal adjacent pair (a board
that is already dead), `make_move` in every direction returns score 0 and
`game over = false` and leaves the grid unchanged: the engine never reports
game over from a board that was already dead when the move was requested. -/
theorem claim_C9 (g : Grid) (d : Direction) (draw pick : Nat)
    (hw : wellFormed g) (hp : powGrid g) (hf : fullGrid g) (hna : noAdjacentEqual g) :
    make_move g d draw pick = .ok (g, 0, false) := by
  have he := powGrid_even g hp
  have hmv : move_tiles g d = .ok (g, 0, false) := by
    rcases hv : isVertical d with _ | _
    · obtain ⟨r0, r1, r2, r3, hg⟩ := exists_four g hw.1
      subst hg
      have hr0 : combine_tiles r0 (combineRight d) = (r0, 0, false) := by
        obtain ⟨a, b, c, e, hre⟩ := exists_four r0 (hw.2 r0 (by simp))
        subst hre
        refine combine_nopair _ _ (by simp) ?_ ?_
        · intro v hv
          simp only [List.mem_cons, List.not_mem_nil, or_false] at hv
          rcases hv with rfl | rfl | rfl | rfl
          · exact hf 0 (by decide) 0 (by decide)
          · exact hf 0 (by decide) 1 (by decide)
          · exact hf 0 (by decide) 2 (by decide)
          · exact hf 0 (by decide) 3 (by decide)
        · simp only [List.chain'_cons, List.chain'_singleton, and_true]
          exact ⟨hna.1 0 (by decide) 0 (by decide), hna.1 0 (by decide) 1 (by decide),
            hna.1 0 (by decide) 2 (by decide)⟩
      have hr1 : combine_tiles r1 (combineRight d) = (r1, 0, false) := by
        obtain ⟨a, b, c, e, hre⟩ := exists_four r1 (hw.2 r1 (by simp))
        subst hre
        refine combine_nopair _ _ (by simp) ?_ ?_
        · intro v hv
          simp only [List.mem_cons, List.not_mem_nil, or_false] at hv
          rcases hv with rfl | rfl | rfl | rfl
          · exact hf 1 (by decide) 0 (by decide)
          · exact hf 1 (by decide) 1 (by decide)
          · exact hf 1 (by decide) 2 (by decide)
          · exact hf 1 (by decide) 3 (by decide)
        · simp only [List.chain'_cons, List.chain'_singleton, and_true]
          exact ⟨hna.1 1 (by decide) 0 (by decide), hna.1 1 (by decide) 1 (by decide),
            hna.1 1 (by decide) 2 (by decide)⟩
      have hr2 : combine_tiles r2 (combineRight d) = (r2, 0, false) := by
        obtain ⟨a, b, c, e, hre⟩ := exists_four r2 (hw.2 r2 (by simp))
        subst hre
        refine combine_nopair _ _ (by simp) ?_ ?_
        · intro v hv
          simp only [List.mem_cons, List.not_mem_nil, or_false] at hv
          rcases hv with rfl | rfl | rfl | rfl
          · exact hf 2 (by decide) 0 (by decide)
          · exact hf 2 (by decide) 1 (by decide)
          · exact hf 2 (by decide) 2 (by decide)
          · exact hf 2 (by decide) 3 (by decide)
        · simp only [List.chain'_cons, List.chain'_singleton, and_true]
          exact ⟨hna.1 2 (by decide) 0 (by decide), hna.1 2 (by decide) 1 (by decide),
            hna.1 2 (by decide) 2 (by decide)⟩
      have hr3 : combine_tiles r3 (combineRight d) = (r3, 0, false) := by
        obtain ⟨a, b, c, e, hre⟩ := exists_four r3 (hw.2 r3 (by simp))
        subst hre
        refine combine_nopair _ _ (by simp) ?_ ?_
        · intro v hv
          simp only [List.mem_cons, List.not_mem_nil, or_false] at hv
          rcases hv with rfl | rfl | rfl | rfl
          · exact hf 3 (by decide) 0 (by decide)
          · exact hf 3 (by decide) 1 (by decide)
          · exact hf 3 (by decide) 2 (by decide)
          · exact hf 3 (by decide) 3 (by decide)
        · simp only [List.chain'_cons, List.chain'_singleton, and_true]
          exact ⟨hna.1 3 (by decide) 0 (by decide), hna.1 3 (by decide) 1 (by decide),
            hna.1 3 (by decide) 2 (by decide)⟩
      have hb := move_tiles_horiz d hv r0 r1 r2 r3
        (hw.2 r0 (by simp)) (hw.2 r1 (by simp)) (hw.2 r2 (by simp)) (hw.2 r3 (by simp))
        (he r0 (by simp)) (he r1 (by simp)) (he r2 (by simp)) (he r3 (by simp))
      rw [hr0, hr1, hr2, hr3] at hb
      simpa using hb
    · obtain ⟨c00, c01, c02, c03, c10, c11, c12, c13, c20, c21, c22, c23,
        c30, c31, c32, c33, hg⟩ := grid_cells g hw
      subst hg
      have hc0 : combine_tiles [c00, c10, c20, c30] (combineRight d) = ([c00, c10, c20, c30], 0, false) := by
        refine combine_nopair _ _ (by simp) ?_ ?_
        · intro v hv
          simp only [List.mem_cons, List.not_mem_nil, or_false] at hv
          rcases hv with rfl | rfl | rfl | rfl
          · exact hf 0 (by decide) 0 (by decide)
          · exact hf 1 (by decide) 0 (by decide)
          · exact hf 2 (by decide) 0 (by decide)
          · exact hf 3 (by decide) 0 (by decide)
        · simp only [List.chain'_cons, List.chain'_singleton, and_true]
          exact ⟨hna.2 0 (by decide) 0 (by decide), hna.2 1 (by decide) 0 (by decide),
            hna.2 2 (by decide) 0 (by decide)⟩
      have hc1 : combine_tiles [c01, c11, c21, c31] (combineRight d) = ([c01, c11, c21, c31], 0, false) := by
        refine combine_nopair _ _ (by simp) ?_ ?_
        · intro v hv
          simp only [List.mem_cons, List.not_mem_nil, or_false] at hv
          rcases hv with rfl | rfl | rfl | rfl
          · exact hf 0 (by decide) 1 (by decide)
          · exact hf 1 (by decide) 1 (by decide)
          · exact hf 2 (by decide) 1 (by decide)
          · exact hf 3 (by decide) 1 (by decide)
        · simp only [List.chain'_cons, List.chain'_singleton, and_true]
          exact ⟨hna.2 0 (by decide) 1 (by decide), hna.2 1 (by decide) 1 (by decide),
            hna.2 2 (by decide) 1 (by decide)⟩
      have hc2 : combine_tiles [c02, c12, c22, c32] (combineRight d) = ([c02, c12, c22, c32], 0, false) := by
        refine combine_nopair _ _ (by simp) ?_ ?_
        · intro v hv
          simp only [List.mem_cons, List.not_mem_nil, or_false] at hv
          rcases hv with rfl | rfl | rfl | rfl
          · exact hf 0 (by decide) 2 (by decide)
          · exact hf 1 (by decide) 2 (by decide)
          · exact hf 2 (by decide) 2 (by decide)
          · exact hf 3 (by decide) 2 (by decide)
        · simp only [List.chain'_cons, List.chain'_singleton, and_true]
          exact ⟨hna.2 0 (by decide) 2 (by decide), hna.2 1 (by decide) 2 (by decide),
            hna.2 2 (by decide) 2 (by decide)⟩
      have hc3 : combine_tiles [c03, c13, c23, c33] (combineRight d) = ([c03, c13, c23, c33], 0, false) := by
        refine combine_nopair _ _ (by simp) ?_ ?_
        · intro v hv
          simp only [List.mem_cons, List.not_mem_nil, or_false] at hv
          rcases hv with rfl | rfl | rfl | rfl
          · exact hf 0 (by decide) 3 (by decide)
          · exact hf 1 (by decide) 3 (by decide)
          · exact hf 2 (by decide) 3 (by decide)
          · exact hf 3 (by decide) 3 (by decide)
        · simp only [List.chain'_cons, List.chain'_singleton, and_true]
          exact ⟨hna.2 0 (by decide) 3 (by decide), hna.2 1 (by decide) 3 (by decide),
            hna.2 2 (by decide) 3 (by decide)⟩
      obtain ⟨q00, q01, q02, q03, q10, q11, q12, q13, q20, q21, q22, q23, q30, q31, q32, q33,
        hmain, hcol0, hcol1, hcol2, hcol3⟩ :=
        move_tiles_vert d hv c00 c01 c02 c03 c10 c11 c12 c13 c20 c21 c22 c23 c30 c31 c32 c33 he
      rw [hc0] at hcol0
      rw [hc1] at hcol1
      rw [hc2] at hcol2
      rw [hc3] at hcol3
      obtain ⟨e00, e10, e20, e30⟩ : c00 = q00 ∧ c10 = q10 ∧ c20 = q20 ∧ c30 = q30 := by
        simpa using hcol0
      obtain ⟨e01, e11, e21, e31⟩ : c01 = q01 ∧ c11 = q11 ∧ c21 = q21 ∧ c31 = q31 := by
        simpa using hcol1
      obtain ⟨e02, e12, e22, e32⟩ : c02 = q02 ∧ c12 = q12 ∧ c22 = q22 ∧ c32 = q32 := by
        simpa using hcol2
      obtain ⟨e03, e13, e23, e33⟩ : c03 = q03 ∧ c13 = q13 ∧ c23 = q23 ∧ c33 = q33 := by
        simpa using hcol3
      rw [hc0, hc1, hc2, hc3] at hmain
      rw [← e00, ← e01, ← e02, ← e03, ← e10, ← e11, ← e12, ← e13,
        ← e20, ← e21, ← e22, ← e23, ← e30, ← e31, ← e32, ← e33] at hmain
      simpa using hmain
  exact make_move_nomove g d draw pick g 0 hmv

/-- Witness for C9 on a concrete dead board, moving up. -/
theorem claim_C9_witness :
    make_move [[2, 4, 2, 4], [4, 2, 4, 2], [2, 4, 2, 4], [4, 2, 4, 2]] Direction.UP 3 5 =
      .ok ([[2, 4, 2, 4], [4, 2, 4, 2], [2, 4, 2, 4], [4, 2, 4, 2]], 0, false) :=
  claim_C9 [[2, 4, 2, 4], [4, 2, 4, 2], [2, 4, 2, 4], [4, 2, 4, 2]] Direction.UP 3 5
    (by decide)
    (by
      intro row hr v hv
      simp only [List.mem_cons, List.not_mem_nil, or_false] at hr
      rcases hr with rfl | rfl | rfl | rfl <;>
        · simp only [List.mem_cons, List.not_mem_nil, or_false] at hv
          rcases hv with rfl | rfl | rfl | rfl <;>
            first
              | exact Or.inr ⟨1, Nat.one_pos, by decide⟩
              | exact Or.inr ⟨2, Nat.zero_lt_two, by decide⟩)
    (by decide) (by decide)

/-! ### Inversion lemmas: what a successful move implies -/

theorem set_tile_ok_inv (g : Grid) (x y : Nat) (v : Int) (g1 : Grid)
    (h : set_tile g x y v = .ok g1) :
    g1 = g.set y ((g.getD y []).set x v) ∧ x < COLS ∧ y < ROWS ∧ v % 2 = 0 := by
  unfold set_tile at h
  split_ifs at h with h1 h2
  · simp only [Except.ok.injEq] at h
    exact ⟨h.symm, h2.1, h2.2, by simpa using h1⟩

theorem writeLine_ok_even (vertical : Bool) (mi : Nat) :
    ∀ (vs : List Int) (g : Grid) (j : Nat) (g2 : Grid),
      writeLine vertical mi g j vs = .ok g2 → ∀ v ∈ vs, v % 2 = 0 := by
  intro vs
  induction vs with
  | nil => simp
  | cons v vs ih =>
    intro g j g2 h w hw
    rw [writeLine] at h
    rcases hst : (if vertical then set_tile g mi j v else set_tile g j mi v) with e | gA
    · rw [hst] at h
      simp at h
    · rw [hst] at h
      simp only at h
      rcases List.mem_cons.mp hw with rfl | hw2
      · rcases vertical with _ | _
        · simp only [Bool.false_eq_true, if_neg] at hst
          exact (set_tile_ok_inv _ _ _ _ _ hst).2.2.2
        · simp only [if_pos] at hst
          exact (set_tile_ok_inv _ _ _ _ _ hst).2.2.2
      · exact ih gA (j + 1) g2 h w hw2

theorem move_tiles_ok_horiz (d : Direction) (hd : isVertical d = false)
    (r0 r1 r2 r3 : List Int)
    (hl0 : r0.length = 4) (hl1 : r1.length = 4) (hl2 : r2.length = 4) (hl3 : r3.length = 4)
    (g1 : Grid) (s : Int) (mv : Bool)
    (h : move_tiles [r0, r1, r2, r3] d = .ok (g1, s, mv)) :
    g1 = [(combine_tiles r0 (combineRight d)).1, (combine_tiles r1 (combineRight d)).1,
          (combine_tiles r2 (combineRight d)).1, (combine_tiles r3 (combineRight d)).1] ∧
    s = (combine_tiles r0 (combineRight d)).2.1 + (combine_tiles r1 (combineRight d)).2.1 +
        (combine_tiles r2 (combineRight d)).2.1 + (combine_tiles r3 (combineRight d)).2.1 ∧
    mv = ((((combine_tiles r0 (combineRight d)).2.2 ||
      (combine_tiles r1 (combineRight d)).2.2) ||
      (combine_tiles r2 (combineRight d)).2.2) || (combine_tiles r3 (combineRight d)).2.2) := by
  obtain ⟨v00, v01, v02, v03, hv0⟩ := exists_four _ (combine_length r0 (combineRight d) hl0)
  obtain ⟨v10, v11, v12, v13, hv1⟩ := exists_four _ (combine_length r1 (combineRight d) hl1)
  obtain ⟨v20, v21, v22, v23, hv2⟩ := exists_four _ (combine_length r2 (combineRight d) hl2)
  obtain ⟨v30, v31, v32, v33, hv3⟩ := exists_four _ (combine_length r3 (combineRight d) hl3)
  obtain ⟨s0, hs0⟩ : ∃ z, (combine_tiles r0 (combineRight d)).2.1 = z := ⟨_, rfl⟩
  obtain ⟨s1, hs1⟩ : ∃ z, (combine_tiles r1 (combineRight d)).2.1 = z := ⟨_, rfl⟩
  obtain ⟨s2, hs2⟩ : ∃ z, (combine_tiles r2 (combineRight d)).2.1 = z := ⟨_, rfl⟩
  obtain ⟨s3, hs3⟩ : ∃ z, (combine_tiles r3 (combineRight d)).2.1 = z := ⟨_, rfl⟩
  obtain ⟨m0, hm0⟩ : ∃ z, (combine_tiles r0 (combineRight d)).2.2 = z := ⟨_, rfl⟩
  obtain ⟨m1, hm1⟩ : ∃ z, (combine_tiles r1 (combineRight d)).2.2 = z := ⟨_, rfl⟩
  obtain ⟨m2, hm2⟩ : ∃ z, (combine_tiles r2 (combineRight d)).2.2 = z := ⟨_, rfl⟩
  obtain ⟨m3, hm3⟩ : ∃ z, (combine_tiles r3 (combineRight d)).2.2 = z := ⟨_, rfl⟩
  have hc0 : combine_tiles r0 (combineRight d) = ([v00, v01, v02, v03], s0, m0) := by
    rw [← hv0, ← hs0, ← hm0]
  have hc1 : combine_tiles r1 (combineRight d) = ([v10, v11, v12, v13], s1, m1) := by
    rw [← hv1, ← hs1, ← hm1]
  have hc2 : combine_tiles r2 (combineRight d) = ([v20, v21, v22, v23], s2, m2) := by
    rw [← hv2, ← hs2, ← hm2]
  have hc3 : combine_tiles r3 (combineRight d) = ([v30, v31, v32, v33], s3, m3) := by
    rw [← hv3, ← hs3, ← hm3]
  simp only [move_tiles, hd, Bool.false_eq_true, if_false, moveLoop, hc0, hc1, hc2, hc3] at h
  rcases hwa : writeLine false 0 [r0, r1, r2, r3] 0 [v00, v01, v02, v03] with e | gA
  · rw [hwa] at h
    simp at h
  · have heva := writeLine_ok_even false 0 _ _ _ _ hwa
    have hwra := writeLine_row r0 r1 r2 r3 0 (by omega) (by simpa using hl0) v00 v01 v02 v03
      (heva _ (by simp)) (heva _ (by simp)) (heva _ (by simp)) (heva _ (by simp))
    rw [hwra] at h
    simp only [List.set_cons_zero, List.set_cons_succ, zero_add] at h
    rcases hwb : writeLine false 1 [[v00, v01, v02, v03], r1, r2, r3] 0 [v10, v11, v12, v13]
      with e | gB
    · rw [hwb] at h
      simp at h
    · have hevb := writeLine_ok_even false 1 _ _ _ _ hwb
      have hwrb := writeLine_row [v00, v01, v02, v03] r1 r2 r3 1 (by omega) (by simpa using hl1)
        v10 v11 v12 v13 (hevb _ (by simp)) (hevb _ (by simp)) (hevb _ (by simp))
        (hevb _ (by simp))
      rw [hwrb] at h
      simp only [List.set_cons_zero, List.set_cons_succ, Nat.reduceAdd] at h
      rcases hwc : writeLine false 2 [[v00, v01, v02, v03], [v10, v11, v12, v13], r2, r3] 0
        [v20, v21, v22, v23] with e | gC
      · rw [hwc] at h
        simp at h
      · have hevc := writeLine_ok_even false 2 _ _ _ _ hwc
        have hwrc := writeLine_row [v00, v01, v02, v03] [v10, v11, v12, v13] r2 r3 2 (by omega)
          (by simpa using hl2) v20 v21 v22 v23 (hevc _ (by simp)) (hevc _ (by simp))
          (hevc _ (by simp)) (hevc _ (by simp))
        rw [hwrc] at h
        simp only [List.set_cons_zero, List.set_cons_succ, Nat.reduceAdd] at h
        rcases hwd : writeLine false 3
          [[v00, v01, v02, v03], [v10, v11, v12, v13], [v20, v21, v22, v23], r3] 0
          [v30, v31, v32, v33] with e | gD
        · rw [hwd] at h
          simp at h
        · have hevd := writeLine_ok_even false 3 _ _ _ _ hwd
          have hwrd := writeLine_row [v00, v01, v02, v03] [v10, v11, v12, v13]
            [v20, v21, v22, v23] r3 3 (by omega) (by simpa using hl3) v30 v31 v32 v33
            (hevd _ (by simp)) (hevd _ (by simp)) (hevd _ (by simp)) (hevd _ (by simp))
          rw [hwrd] at h
          simp only [List.set_cons_zero, List.set_cons_succ, Except.ok.injEq,
            Prod.mk.injEq] at h
          obtain ⟨hg, hs, hm⟩ := h
          refine ⟨?_, ?_, ?_⟩
          · rw [hv0, hv1, hv2, hv3, ← hg]
          · rw [hs0, hs1, hs2, hs3, ← hs]
          · rw [hm0, hm1, hm2, hm3, ← hm]
            simp

theorem move_tiles_ok_vert (d : Direction) (hd : isVertical d = true)
    (c00 c01 c02 c03 c10 c11 c12 c13 c20 c21 c22 c23 c30 c31 c32 c33 : Int)
    (g1 : Grid) (s : Int) (mv : Bool)
    (h : move_tiles [[c00, c01, c02, c03], [c10, c11, c12, c13], [c20, c21, c22, c23], [c30, c31, c32, c33]] d = .ok (g1, s, mv)) :
    ∃ q00 q01 q02 q03 q10 q11 q12 q13 q20 q21 q22 q23 q30 q31 q32 q33 : Int,
      g1 = [[q00, q01, q02, q03], [q10, q11, q12, q13],
            [q20, q21, q22, q23], [q30, q31, q32, q33]] ∧
      (combine_tiles [c00, c10, c20, c30] (combineRight d)).1 = [q00, q10, q20, q30] ∧
      (combine_tiles [c01, c11, c21, c31] (combineRight d)).1 = [q01, q11, q21, q31] ∧
      (combine_tiles [c02, c12, c22, c32] (combineRight d)).1 = [q02, q12, q22, q32] ∧
      (combine_tiles [c03, c13, c23, c33] (combineRight d)).1 = [q03, q13, q23, q33] ∧
      s = (combine_tiles [c00, c10, c20, c30] (combineRight d)).2.1 +
          (combine_tiles [c01, c11, c21, c31] (combineRight d)).2.1 +
          (combine_tiles [c02, c12, c22, c32] (combineRight d)).2.1 +
          (combine_tiles [c03, c13, c23, c33] (combineRight d)).2.1 ∧
      mv = ((((combine_tiles [c00, c10, c20, c30] (combineRight d)).2.2 ||
        (combine_tiles [c01, c11, c21, c31] (combineRight d)).2.2) ||
        (combine_tiles [c02, c12, c22, c32] (combineRight d)).2.2) ||
        (combine_tiles [c03, c13, c23, c33] (combineRight d)).2.2) := by
  obtain ⟨q00, q10, q20, q30, hv0⟩ :=
    exists_four _ (combine_length [c00, c10, c20, c30] (combineRight d) (by simp))
  obtain ⟨s0, hs0⟩ : ∃ z, (combine_tiles [c00, c10, c20, c30] (combineRight d)).2.1 = z := ⟨_, rfl⟩
  obtain ⟨m0, hm0⟩ : ∃ z, (combine_tiles [c00, c10, c20, c30] (combineRight d)).2.2 = z := ⟨_, rfl⟩
  have hc0 : combine_tiles [c00, c10, c20, c30] (combineRight d) =
      ([q00, q10, q20, q30], s0, m0) := by
    rw [← hv0, ← hs0, ← hm0]
  obtain ⟨q01, q11, q21, q31, hv1⟩ :=
    exists_four _ (combine_length [c01, c11, c21, c31] (combineRight d) (by simp))
  obtain ⟨s1, hs1⟩ : ∃ z, (combine_tiles [c01, c11, c21, c31] (combineRight d)).2.1 = z := ⟨_, rfl⟩
  obtain ⟨m1, hm1⟩ : ∃ z, (combine_tiles [c01, c11, c21, c31] (combineRight d)).2.2 = z := ⟨_, rfl⟩
  have hc1 : combine_tiles [c01, c11, c21, c31] (combineRight d) =
      ([q01, q11, q21, q31], s1, m1) := by
    rw [← hv1, ← hs1, ← hm1]
  obtain ⟨q02, q12, q22, q32, hv2⟩ :=
    exists_four _ (combine_length [c02, c12, c22, c32] (combineRight d) (by simp))
  obtain ⟨s2, hs2⟩ : ∃ z, (combine_tiles [c02, c12, c22, c32] (combineRight d)).2.1 = z := ⟨_, rfl⟩
  obtain ⟨m2, hm2⟩ : ∃ z, (combine_tiles [c02, c12, c22, c32] (combineRight d)).2.2 = z := ⟨_, rfl⟩
  have hc2 : combine_tiles [c02, c12, c22, c32] (combineRight d) =
      ([q02, q12, q22, q32], s2, m2) := by
    rw [← hv2, ← hs2, ← hm2]
  obtain ⟨q03, q13, q23, q33, hv3⟩ :=
    exists_four _ (combine_length [c03, c13, c23, c33] (combineRight d) (by simp))
  obtain ⟨s3, hs3⟩ : ∃ z, (combine_tiles [c03, c13, c23, c33] (combineRight d)).2.1 = z := ⟨_, rfl⟩
  obtain ⟨m3, hm3⟩ : ∃ z, (combine_tiles [c03, c13, c23, c33] (combineRight d)).2.2 = z := ⟨_, rfl⟩
  have hc3 : combine_tiles [c03, c13, c23, c33] (combineRight d) =
      ([q03, q13, q23, q33], s3, m3) := by
    rw [← hv3, ← hs3, ← hm3]
  have htc : (List.range COLS).map (fun x => column [[c00, c01, c02, c03], [c10, c11, c12, c13], [c20, c21, c22, c23], [c30, c31, c32, c33]] x) =
      [[c00, c10, c20, c30], [c01, c11, c21, c31], [c02, c12, c22, c32], [c03, c13, c23, c33]] := rfl
  simp only [move_tiles, hd, if_true, htc, moveLoop, hc0, hc1, hc2, hc3] at h
  rcases hwa : writeLine true 0 [[c00, c01, c02, c03], [c10, c11, c12, c13], [c20, c21, c22, c23], [c30, c31, c32, c33]] 0 [q00, q10, q20, q30] with e | gA
  · rw [hwa] at h
    simp at h
  · have heva := writeLine_ok_even true 0 _ _ _ _ hwa
    have hwra := writeLine_col c00 c01 c02 c03 c10 c11 c12 c13 c20 c21 c22 c23 c30 c31 c32 c33
      0 (by omega) q00 q10 q20 q30
      (heva _ (by simp)) (heva _ (by simp)) (heva _ (by simp)) (heva _ (by simp))
    rw [hwra] at h
    simp only [List.set_cons_zero, List.set_cons_succ, Nat.reduceAdd, zero_add] at h
    rcases hwb : writeLine true 1 [[q00, c01, c02, c03], [q10, c11, c12, c13], [q20, c21, c22, c23], [q30, c31, c32, c33]] 0 [q01, q11, q21, q31] with e | gB
    · rw [hwb] at h
      simp at h
    · have hevb := writeLine_ok_even true 1 _ _ _ _ hwb
      have hwrb := writeLine_col q00 c01 c02 c03 q10 c11 c12 c13 q20 c21 c22 c23 q30 c31 c32 c33
        1 (by omega) q01 q11 q21 q31
        (hevb _ (by simp)) (hevb _ (by simp)) (hevb _ (by simp)) (hevb _ (by simp))
      rw [hwrb] at h
      simp only [List.set_cons_zero, List.set_cons_succ, Nat.reduceAdd, zero_add] at h
      rcases hwc : writeLine true 2 [[q00, q01, c02, c03], [q10, q11, c12, c13], [q20, q21, c22, c23], [q30, q31, c32, c33]] 0 [q02, q12, q22, q32] with e | gC
      · rw [hwc] at h
        simp at h
      · have hevc := writeLine_ok_even true 2 _ _ _ _ hwc
        have hwrc := writeLine_col q00 q01 c02 c03 q10 q11 c12 c13 q20 q21 c22 c23 q30 q31 c32 c33
          2 (by omega) q02 q12 q22 q32
          (hevc _ (by simp)) (hevc _ (by simp)) (hevc _ (by simp)) (hevc _ (by simp))
        rw [hwrc] at h
        simp only [List.set_cons_zero, List.set_cons_succ, Nat.reduceAdd, zero_add] at h
        rcases hwd : writeLine true 3 [[q00, q01, q02, c03], [q10, q11, q12, c13], [q20, q21, q22, c23], [q30, q31, q32, c33]] 0 [q03, q13, q23, q33] with e | gD
        · rw [hwd] at h
          simp at h
        · have hevd := writeLine_ok_even true 3 _ _ _ _ hwd
          have hwrd := writeLine_col q00 q01 q02 c03 q10 q11 q12 c13 q20 q21 q22 c23 q30 q31 q32 c33
            3 (by omega) q03 q13 q23 q33
            (hevd _ (by simp)) (hevd _ (by simp)) (hevd _ (by simp)) (hevd _ (by simp))
          rw [hwrd] at h
          simp only [List.set_cons_zero, List.set_cons_succ, Except.ok.injEq, Prod.mk.injEq] at h
          obtain ⟨hg, hs, hm⟩ := h
          refine ⟨q00, q01, q02, q03, q10, q11, q12, q13, q20, q21, q22, q23, q30, q31, q32, q33,
            ?_, ?_, ?_, ?_, ?_, ?_, ?_⟩
          · rw [← hg]
          · rw [hv0]
          · rw [hv1]
          · rw [hv2]
          · rw [hv3]
          · rw [hs0, hs1, hs2, hs3, ← hs]
          · rw [hm0, hm1, hm2, hm3, ← hm]
            simp

theorem move_tiles_ok_cells (g : Grid) (d : Direction) (g1 : Grid) (s1 : Int) (mv : Bool)
    (hw : wellFormed g) (h : move_tiles g d = .ok (g1, s1, mv)) :
    wellFormed g1 ∧
      ∀ row1 ∈ g1, ∀ v ∈ row1,
        v = 0 ∨ (∃ row ∈ g, v ∈ row) ∨ ∃ row ∈ g, ∃ u ∈ row, v = 2 * u := by
  rcases hv : isVertical d with _ | _
  · obtain ⟨r0, r1, r2, r3, hg⟩ := exists_four g hw.1
    subst hg
    have hl0 := hw.2 r0 (by simp)
    have hl1 := hw.2 r1 (by simp)
    have hl2 := hw.2 r2 (by simp)
    have hl3 := hw.2 r3 (by simp)
    obtain ⟨hg1, hs, hm⟩ := move_tiles_ok_horiz d hv r0 r1 r2 r3 hl0 hl1 hl2 hl3 g1 s1 mv h
    constructor
    · subst hg1
      refine ⟨by simp [ROWS], ?_⟩
      intro row hr
      simp only [List.mem_cons, List.not_mem_nil, or_false] at hr
      rcases hr with rfl | rfl | rfl | rfl
      · exact combine_length r0 _ hl0
      · exact combine_length r1 _ hl1
      · exact combine_length r2 _ hl2
      · exact combine_length r3 _ hl3
    · subst hg1
      intro row1 hr1 v hv1
      simp only [List.mem_cons, List.not_mem_nil, or_false] at hr1
      rcases hr1 with rfl | rfl | rfl | rfl
      · rcases combine_mem r0 _ v hv1 with h0 | h0 | ⟨u, hu, he⟩
        · exact Or.inl h0
        · exact Or.inr (Or.inl ⟨r0, by simp, h0⟩)
        · exact Or.inr (Or.inr ⟨r0, by simp, u, hu, he⟩)
      · rcases combine_mem r1 _ v hv1 with h0 | h0 | ⟨u, hu, he⟩
        · exact Or.inl h0
        · exact Or.inr (Or.inl ⟨r1, by simp, h0⟩)
        · exact Or.inr (Or.inr ⟨r1, by simp, u, hu, he⟩)
      · rcases combine_mem r2 _ v hv1 with h0 | h0 | ⟨u, hu, he⟩
        · exact Or.inl h0
        · exact Or.inr (Or.inl ⟨r2, by simp, h0⟩)
        · exact Or.inr (Or.inr ⟨r2, by simp, u, hu, he⟩)
      · rcases combine_mem r3 _ v hv1 with h0 | h0 | ⟨u, hu, he⟩
        · exact Or.inl h0
        · exact Or.inr (Or.inl ⟨r3, by simp, h0⟩)
        · exact Or.inr (Or.inr ⟨r3, by simp, u, hu, he⟩)
  · obtain ⟨c00, c01, c02, c03, c10, c11, c12, c13, c20, c21, c22, c23,
      c30, c31, c32, c33, hg⟩ := grid_cells g hw
    subst hg
    obtain ⟨q00, q01, q02, q03, q10, q11, q12, q13, q20, q21, q22, q23, q30, q31, q32, q33,
      hg1, hcol0, hcol1, hcol2, hcol3, hs, hm⟩ :=
      move_tiles_ok_vert d hv c00 c01 c02 c03 c10 c11 c12 c13 c20 c21 c22 c23
        c30 c31 c32 c33 g1 s1 mv h
    constructor
    · subst hg1
      exact ⟨by simp [ROWS], by
        intro row hr
        simp only [List.mem_cons, List.not_mem_nil, or_false] at hr
        rcases hr with rfl | rfl | rfl | rfl <;> simp [COLS]⟩
    · subst hg1
      intro row1 hr1 v hv1
      simp only [List.mem_cons, List.not_mem_nil, or_false] at hr1
      have hq : ∀ j : Nat, j < 4 → ∀ w : Int,
          w ∈ (if j = 0 then [q00, q10, q20, q30] else if j = 1 then [q01, q11, q21, q31]
            else if j = 2 then [q02, q12, q22, q32] else [q03, q13, q23, q33]) →
          w = 0 ∨
            (∃ row ∈ [[c00, c01, c02, c03], [c10, c11, c12, c13], [c20, c21, c22, c23],
              [c30, c31, c32, c33]], w ∈ row) ∨
            ∃ row ∈ [[c00, c01, c02, c03], [c10, c11, c12, c13], [c20, c21, c22, c23],
              [c30, c31, c32, c33]], ∃ u ∈ row, w = 2 * u := by
        intro j hj w hwmem
        have hcases : w ∈ (combine_tiles [c00, c10, c20, c30] (combineRight d)).1 ∨
            w ∈ (combine_tiles [c01, c11, c21, c31] (combineRight d)).1 ∨
            w ∈ (combine_tiles [c02, c12, c22, c32] (combineRight d)).1 ∨
            w ∈ (combine_tiles [c03, c13, c23, c33] (combineRight d)).1 := by
          interval_cases j
          · exact Or.inl (by rw [hcol0]; simpa using hwmem)
          · exact Or.inr (Or.inl (by rw [hcol1]; simpa using hwmem))
          · exact Or.inr (Or.inr (Or.inl (by rw [hcol2]; simpa using hwmem)))
          · exact Or.inr (Or.inr (Or.inr (by rw [hcol3]; simpa using hwmem)))
        have hcol_mem : ∀ t : List Int,
            (∀ u ∈ t, ∃ row ∈ [[c00, c01, c02, c03], [c10, c11, c12, c13],
              [c20, c21, c22, c23], [c30, c31, c32, c33]], u ∈ row) →
            w ∈ (combine_tiles t (combineRight d)).1 →
            w = 0 ∨
              (∃ row ∈ [[c00, c01, c02, c03], [c10, c11, c12, c13], [c20, c21, c22, c23],
                [c30, c31, c32, c33]], w ∈ row) ∨
              ∃ row ∈ [[c00, c01, c02, c03], [c10, c11, c12, c13], [c20, c21, c22, c23],
                [c30, c31, c32, c33]], ∃ u ∈ row, w = 2 * u := by
          intro t ht hwm
          rcases combine_mem t _ w hwm with h0 | h0 | ⟨u, hu, he⟩
          · exact Or.inl h0
          · exact Or.inr (Or.inl (ht w h0))
          · obtain ⟨row, hrow, humem⟩ := ht u hu
            exact Or.inr (Or.inr ⟨row, hrow, u, humem, he⟩)
        rcases hcases with hc | hc | hc | hc
        · refine hcol_mem _ ?_ hc
          intro u hu
          simp only [List.mem_cons, List.not_mem_nil, or_false] at hu
          rcases hu with huc | huc | huc | huc
          · exact ⟨[c00, c01, c02, c03], by simp, by simp [huc]⟩
          · exact ⟨[c10, c11, c12, c13], by simp, by simp [huc]⟩
          · exact ⟨[c20, c21, c22, c23], by simp, by simp [huc]⟩
          · exact ⟨[c30, c31, c32, c33], by simp, by simp [huc]⟩
        · refine hcol_mem _ ?_ hc
          intro u hu
          simp only [List.mem_cons, List.not_mem_nil, or_false] at hu
          rcases hu with huc | huc | huc | huc
          · exact ⟨[c00, c01, c02, c03], by simp, by simp [huc]⟩
          · exact ⟨[c10, c11, c12, c13], by simp, by simp [huc]⟩
          · exact ⟨[c20, c21, c22, c23], by simp, by simp [huc]⟩
          · exact ⟨[c30, c31, c32, c33], by simp, by simp [huc]⟩
        · refine hcol_mem _ ?_ hc
          intro u hu
          simp only [List.mem_cons, List.not_mem_nil, or_false] at hu
          rcases hu with huc | huc | huc | huc
          · exact ⟨[c00, c01, c02, c03], by simp, by simp [huc]⟩
          · exact ⟨[c10, c11, c12, c13], by simp, by simp [huc]⟩
          · exact ⟨[c20, c21, c22, c23], by simp, by simp [huc]⟩
          · exact ⟨[c30, c31, c32, c33], by simp, by simp [huc]⟩
        · refine hcol_mem _ ?_ hc
          intro u hu
          simp only [List.mem_cons, List.not_mem_nil, or_false] at hu
          rcases hu with huc | huc | huc | huc
          · exact ⟨[c00, c01, c02, c03], by simp, by simp [huc]⟩
          · exact ⟨[c10, c11, c12, c13], by simp, by simp [huc]⟩
          · exact ⟨[c20, c21, c22, c23], by simp, by simp [huc]⟩
          · exact ⟨[c30, c31, c32, c33], by simp, by simp [huc]⟩
      rcases hr1 with rfl | rfl | rfl | rfl
      · simp only [List.mem_cons, List.not_mem_nil, or_false] at hv1
        rcases hv1 with rfl | rfl | rfl | rfl
        · exact hq 0 (by omega) v (by simp)
        · exact hq 1 (by omega) v (by simp)
        · exact hq 2 (by omega) v (by simp)
        · exact hq 3 (by omega) v (by simp)
      · simp only [List.mem_cons, List.not_mem_nil, or_false] at hv1
        rcases hv1 with rfl | rfl | rfl | rfl
        · exact hq 0 (by omega) v (by simp)
        · exact hq 1 (by omega) v (by simp)
        · exact hq 2 (by omega) v (by simp)
        · exact hq 3 (by omega) v (by simp)
      · simp only [List.mem_cons, List.not_mem_nil, or_false] at hv1
        rcases hv1 with rfl | rfl | rfl | rfl
        · exact hq 0 (by omega) v (by simp)
        · exact hq 1 (by omega) v (by simp)
        · exact hq 2 (by omega) v (by simp)
        · exact hq 3 (by omega) v (by simp)
      · simp only [List.mem_cons, List.not_mem_nil, or_false] at hv1
        rcases hv1 with rfl | rfl | rfl | rfl
        · exact hq 0 (by omega) v (by simp)
        · exact hq 1 (by omega) v (by simp)
        · exact hq 2 (by omega) v (by simp)
        · exact hq 3 (by omega) v (by simp)

theorem powGrid_set (g : Grid) (x y : Nat) (v : Int) (hp : powGrid g)
    (hv : v = 0 ∨ ∃ k : Nat, 0 < k ∧ v = 2 ^ k) :
    powGrid (g.set y ((g.getD y []).set x v)) := by
  intro row hr w hw2
  rcases List.mem_or_eq_of_mem_set hr with hr2 | rfl
  · exact hp row hr2 w hw2
  · rcases List.mem_or_eq_of_mem_set hw2 with hw3 | rfl
    · rcases Nat.lt_or_ge y g.length with hy | hy
      · exact hp _ (getD_mem_of_lt g y hy []) w hw3
      · rw [List.getD_eq_default _ _ hy] at hw3
        simp at hw3
    · exact hv

/-- C4: starting from a grid whose cells are all 0 or positive powers of
two, any `make_move` (any direction, any random draws) that returns keeps
every cell 0 or a positive power of two: merges double an existing power of
two and the spawner only places 2 or 4. -/
theorem claim_C4 (g : Grid) (d : Direction) (draw pick : Nat) (g' : Grid) (s : Int) (ov : Bool)
    (hw : wellFormed g) (hp : powGrid g)
    (h : make_move g d draw pick = .ok (g', s, ov)) : powGrid g' := by
  rcases hmt : move_tiles g d with e | ⟨g1, s1, mv⟩
  · simp only [make_move, hmt] at h
    simp at h
  · obtain ⟨hw1, hcells⟩ := move_tiles_ok_cells g d g1 s1 mv hw hmt
    have hp1 : powGrid g1 := by
      intro row1 hr1 v hv1
      rcases hcells row1 hr1 v hv1 with h0 | ⟨row, hrow, hvm⟩ | ⟨row, hrow, u, hu, he⟩
      · exact Or.inl h0
      · exact hp row hrow v hvm
      · rcases hp row hrow u hu with h0 | ⟨k, hk, he2⟩
        · exact Or.inl (by rw [he, h0]; ring)
        · exact Or.inr ⟨k + 1, by omega, by rw [he, he2, pow_succ]; ring⟩
    rcases mv with _ | _
    · simp only [make_move, hmt, Bool.false_eq_true, if_false, Except.ok.injEq,
        Prod.mk.injEq] at h
      obtain ⟨h1, _, _⟩ := h
      rw [← h1]
      exact hp1
    · by_cases hemp : emptyCells g1 = []
      · have hmm := make_move_moved g d draw pick g1 s1 g1 false hmt
          (place_none g1 draw pick hemp)
        rw [hmm] at h
        simp only [Bool.false_eq_true, if_false, Except.ok.injEq, Prod.mk.injEq] at h
        obtain ⟨h1, _, _⟩ := h
        rw [← h1]
        exact hp1
      · obtain ⟨x, y, hmem, hpl⟩ := place_spec g1 draw pick hemp
        have hmm := make_move_moved g d draw pick g1 s1 _ _ hmt hpl
        rw [hmm] at h
        have hg2 : g' = g1.set y ((g1.getD y []).set x (if draw > 0 then 2 else 4)) := by
          rcases hb : ((emptyCells g1).length - 1 != 0) with _ | _ <;>
            · rw [hb] at h
              simp only [if_true, Bool.false_eq_true, if_false, Except.ok.injEq,
                Prod.mk.injEq] at h
              exact h.1.symm
        rw [hg2]
        refine powGrid_set g1 x y _ hp1 ?_
        rcases draw with _ | n
        · exact Or.inr ⟨2, by omega, by norm_num⟩
        · exact Or.inr ⟨1, by omega, by norm_num⟩

/-- Witness for C4: a left move that merges two 2s into a 4 and spawns a 2. -/
theorem claim_C4_witness :
    powGrid [[4, 2, 0, 0], [0, 0, 0, 0], [0, 0, 0, 0], [0, 0, 0, 0]] :=
  claim_C4 [[2, 2, 0, 0], [0, 0, 0, 0], [0, 0, 0, 0], [0, 0, 0, 0]] Direction.LEFT 1 0
    [[4, 2, 0, 0], [0, 0, 0, 0], [0, 0, 0, 0], [0, 0, 0, 0]] 4 false
    (by decide)
    (by
      intro row hr v hv
      simp only [List.mem_cons, List.not_mem_nil, or_false] at hr
      rcases hr with rfl | rfl | rfl | rfl <;>
        · simp only [List.mem_cons, List.not_mem_nil, or_false] at hv
          rcases hv with rfl | rfl | rfl | rfl <;>
            first
              | exact Or.inl rfl
              | exact Or.inr ⟨1, Nat.one_pos, by decide⟩)
    (by rfl)

/-- C5: with the random draws as inputs, the spawner on a grid with at
least one empty cell sets exactly one previously empty cell to 4 when the
value draw is 0 and to 2 otherwise, and returns true iff the grid had at
least two empty cells; on a full grid it places nothing and returns false. -/
theorem claim_C5 (g : Grid) (draw pick : Nat) (hw : wellFormed g) :
    (emptyCells g = [] → place_random_tile g draw pick = .ok (g, false)) ∧
    (emptyCells g ≠ [] →
      ∃ g' : Grid, place_random_tile g draw pick =
          .ok (g', decide (1 < (emptyCells g).length)) ∧
        ∃ x y : Nat, x < COLS ∧ y < ROWS ∧ getCell g y x = 0 ∧
          getCell g' y x = (if draw = 0 then 4 else 2) ∧
          ∀ y' x' : Nat, y' < ROWS → x' < COLS → ¬(y' = y ∧ x' = x) →
            getCell g' y' x' = getCell g y' x') := by
  constructor
  · intro hemp
    exact place_none g draw pick hemp
  · intro hne
    obtain ⟨x, y, hmem, hpl⟩ := place_spec g draw pick hne
    obtain ⟨hy, hx, hz⟩ := (mem_emptyCells g x y).mp hmem
    have hbool : ((emptyCells g).length - 1 != 0) = decide (1 < (emptyCells g).length) := by
      rcases hn : (emptyCells g).length with _ | n
      · simp
      · cases n <;> simp
    have hval : (if draw > 0 then (2 : Int) else 4) = (if draw = 0 then 4 else 2) := by
      rcases draw with _ | n <;> simp
    have hcell := getCell_set_tile g x y (if draw > 0 then (2 : Int) else 4)
      (by rw [hw.1]; exact hy)
      (by
        rw [wf_row_length g hw y (by simpa [ROWS] using hy)]
        simpa [COLS] using hx)
    refine ⟨_, by rw [hpl, hbool], x, y, hx, hy, hz, ?_, ?_⟩
    · rw [hcell y x]
      simp [hval]
    · intro y' x' hy' hx' hne'
      rw [hcell y' x', if_neg hne']

/-- Witness for C5 on the empty grid with value draw 0 (a 4-tile spawn). -/
theorem claim_C5_witness :
    (emptyCells [[0, 0, 0, 0], [0, 0, 0, 0], [0, 0, 0, 0], [0, 0, 0, 0]] = [] →
      place_random_tile [[0, 0, 0, 0], [0, 0, 0, 0], [0, 0, 0, 0], [0, 0, 0, 0]] 0 7 = .ok ([[0, 0, 0, 0], [0, 0, 0, 0], [0, 0, 0, 0], [0, 0, 0, 0]], false)) ∧
    (emptyCells [[0, 0, 0, 0], [0, 0, 0, 0], [0, 0, 0, 0], [0, 0, 0, 0]] ≠ [] →
      ∃ g' : Grid, place_random_tile [[0, 0, 0, 0], [0, 0, 0, 0], [0, 0, 0, 0], [0, 0, 0, 0]] 0 7 =
          .ok (g', decide (1 < (emptyCells [[0, 0, 0, 0], [0, 0, 0, 0], [0, 0, 0, 0], [0, 0, 0, 0]]).length)) ∧
        ∃ x y : Nat, x < COLS ∧ y < ROWS ∧
          getCell [[0, 0, 0, 0], [0, 0, 0, 0], [0, 0, 0, 0], [0, 0, 0, 0]] y x = 0 ∧
          getCell g' y x = (if (0 : Nat) = 0 then 4 else 2) ∧
          ∀ y' x' : Nat, y' < ROWS → x' < COLS → ¬(y' = y ∧ x' = x) →
            getCell g' y' x' = getCell [[0, 0, 0, 0], [0, 0, 0, 0], [0, 0, 0, 0], [0, 0, 0, 0]] y' x') :=
  claim_C5 [[0, 0, 0, 0], [0, 0, 0, 0], [0, 0, 0, 0], [0, 0, 0, 0]] 0 7 (by decide)

/-! ### The running maximum of `get_biggest_block` -/

theorem foldl_max_le (l : List Int) :
    ∀ a c : Int, (l.foldl max a ≤ c ↔ a ≤ c ∧ ∀ v ∈ l, v ≤ c) := by
  induction l with
  | nil => simp
  | cons x l ih =>
    intro a c
    simp only [List.foldl_cons, ih, max_le_iff, List.mem_cons]
    constructor
    · rintro ⟨⟨h1, h2⟩, h3⟩
      exact ⟨h1, fun v hv => by rcases hv with rfl | hv; exact h2; exact h3 v hv⟩
    · rintro ⟨h1, h2⟩
      exact ⟨⟨h1, h2 x (Or.inl rfl)⟩, fun v hv => h2 v (Or.inr hv)⟩

theorem le_foldl_max (l : List Int) :
    ∀ a b : Int, (b ≤ a ∨ ∃ v ∈ l, b ≤ v) → b ≤ l.foldl max a := by
  induction l with
  | nil =>
    intro a b h
    rcases h with h | ⟨v, hv, _⟩
    · simpa using h
    · simp at hv
  | cons x l ih =>
    intro a b h
    simp only [List.foldl_cons]
    rcases h with h | ⟨v, hv, hle⟩
    · exact ih (max a x) b (Or.inl (le_trans h (le_max_left a x)))
    · rcases List.mem_cons.mp hv with rfl | hv2
      · exact ih (max a v) v (Or.inl (le_max_right a v)) |>.trans' hle
      · exact ih (max a x) b (Or.inr ⟨v, hv2, hle⟩)

theorem mem_cells_iff (g : Grid) (v : Int) :
    v ∈ (((List.range ROWS).map
        (fun y => (List.range COLS).map (fun x => getCell g y x))).flatten) ↔
      ∃ y, y < ROWS ∧ ∃ x, x < COLS ∧ getCell g y x = v := by
  simp only [List.mem_flatten, List.mem_map, List.mem_range]
  constructor
  · rintro ⟨l, ⟨y, hy, rfl⟩, hv⟩
    obtain ⟨x, hx, hxy⟩ := List.mem_map.mp hv
    exact ⟨y, hy, x, List.mem_range.mp hx, hxy⟩
  · rintro ⟨y, hy, x, hx, hxy⟩
    exact ⟨_, ⟨y, hy, rfl⟩, List.mem_map.mpr ⟨x, List.mem_range.mpr hx, hxy⟩⟩

theorem mem_rows_cell (g : Grid) (hw : wellFormed g) (row : List Int) (hrow : row ∈ g)
    (v : Int) (hv : v ∈ row) : ∃ y, y < ROWS ∧ ∃ x, x < COLS ∧ getCell g y x = v := by
  obtain ⟨c00, c01, c02, c03, c10, c11, c12, c13, c20, c21, c22, c23,
    c30, c31, c32, c33, hg⟩ := grid_cells g hw
  subst hg
  simp only [List.mem_cons, List.not_mem_nil, or_false] at hrow
  rcases hrow with rfl | rfl | rfl | rfl <;>
    · simp only [List.mem_cons, List.not_mem_nil, or_false] at hv
      rcases hv with rfl | rfl | rfl | rfl <;>
          first
            | exact ⟨0, by decide, 0, by decide, rfl⟩
            | exact ⟨0, by decide, 1, by decide, rfl⟩
            | exact ⟨0, by decide, 2, by decide, rfl⟩
            | exact ⟨0, by decide, 3, by decide, rfl⟩
            | exact ⟨1, by decide, 0, by decide, rfl⟩
            | exact ⟨1, by decide, 1, by decide, rfl⟩
            | exact ⟨1, by decide, 2, by decide, rfl⟩
            | exact ⟨1, by decide, 3, by decide, rfl⟩
            | exact ⟨2, by decide, 0, by decide, rfl⟩
            | exact ⟨2, by decide, 1, by decide, rfl⟩
            | exact ⟨2, by decide, 2, by decide, rfl⟩
            | exact ⟨2, by decide, 3, by decide, rfl⟩
            | exact ⟨3, by decide, 0, by decide, rfl⟩
            | exact ⟨3, by decide, 1, by decide, rfl⟩
            | exact ⟨3, by decide, 2, by decide, rfl⟩
            | exact ⟨3, by decide, 3, by decide, rfl⟩

theorem cell_mem_rows (g : Grid) (hw : wellFormed g) (y x : Nat) (hy : y < ROWS)
    (hx : x < COLS) : ∃ row ∈ g, getCell g y x ∈ row := by
  refine ⟨g.getD y [], getD_mem_of_lt g y (by rw [hw.1]; exact hy) [], ?_⟩
  exact getD_mem_of_lt _ x
    (by
      rw [wf_row_length g hw y (by simpa [ROWS] using hy)]
      simpa [COLS] using hx) 0

theorem biggest_le_of_mem_ge (A B : Grid) (hwA : wellFormed A) (hwB : wellFormed B)
    (h : ∀ row ∈ A, ∀ v ∈ row, ∃ row1 ∈ B, ∃ w ∈ row1, v ≤ w) :
    get_biggest_block A ≤ get_biggest_block B := by
  unfold get_biggest_block
  rw [foldl_max_le]
  refine ⟨le_foldl_max _ 0 0 (Or.inl le_rfl), ?_⟩
  intro v hv
  obtain ⟨y, hy, x, hx, hxy⟩ := (mem_cells_iff A v).mp hv
  obtain ⟨row, hrow, hvrow⟩ := cell_mem_rows A hwA y x hy hx
  rw [hxy] at hvrow
  obtain ⟨row1, hrow1, w, hw1, hle⟩ := h row hrow v hvrow
  obtain ⟨y', hy', x', hx', hxy'⟩ := mem_rows_cell B hwB row1 hrow1 w hw1
  refine le_foldl_max _ 0 v (Or.inr ⟨w, ?_, hle⟩)
  exact (mem_cells_iff B w).mpr ⟨y', hy', x', hx', hxy'⟩

theorem move_tiles_ok_ge (g : Grid) (d : Direction) (g1 : Grid) (s1 : Int) (mv : Bool)
    (hw : wellFormed g) (hpos : ∀ row ∈ g, ∀ v ∈ row, 0 ≤ v)
    (h : move_tiles g d = .ok (g1, s1, mv)) :
    ∀ row ∈ g, ∀ v ∈ row, ∃ row1 ∈ g1, ∃ w ∈ row1, v ≤ w := by
  rcases hv : isVertical d with _ | _
  · obtain ⟨r0, r1, r2, r3, hg⟩ := exists_four g hw.1
    subst hg
    obtain ⟨hg1, hs, hm⟩ := move_tiles_ok_horiz d hv r0 r1 r2 r3 (hw.2 r0 (by simp))
      (hw.2 r1 (by simp)) (hw.2 r2 (by simp)) (hw.2 r3 (by simp)) g1 s1 mv h
    intro row hrow v hvr
    simp only [List.mem_cons, List.not_mem_nil, or_false] at hrow
    rcases hrow with hR | hR | hR | hR
    · obtain ⟨w, hwm, hle⟩ := combine_exists_ge r0 (combineRight d)
        (hw.2 r0 (by simp)) (hpos r0 (by simp)) v (hR ▸ hvr)
      exact ⟨(combine_tiles r0 (combineRight d)).1, by rw [hg1]; simp, w, hwm, hle⟩
    · obtain ⟨w, hwm, hle⟩ := combine_exists_ge r1 (combineRight d)
        (hw.2 r1 (by simp)) (hpos r1 (by simp)) v (hR ▸ hvr)
      exact ⟨(combine_tiles r1 (combineRight d)).1, by rw [hg1]; simp, w, hwm, hle⟩
    · obtain ⟨w, hwm, hle⟩ := combine_exists_ge r2 (combineRight d)
        (hw.2 r2 (by simp)) (hpos r2 (by simp)) v (hR ▸ hvr)
      exact ⟨(combine_tiles r2 (combineRight d)).1, by rw [hg1]; simp, w, hwm, hle⟩
    · obtain ⟨w, hwm, hle⟩ := combine_exists_ge r3 (combineRight d)
        (hw.2 r3 (by simp)) (hpos r3 (by simp)) v (hR ▸ hvr)
      exact ⟨(combine_tiles r3 (combineRight d)).1, by rw [hg1]; simp, w, hwm, hle⟩
  · obtain ⟨c00, c01, c02, c03, c10, c11, c12, c13, c20, c21, c22, c23,
      c30, c31, c32, c33, hg⟩ := grid_cells g hw
    subst hg
    obtain ⟨q00, q01, q02, q03, q10, q11, q12, q13, q20, q21, q22, q23, q30, q31, q32, q33,
      hg1, hcol0, hcol1, hcol2, hcol3, hs, hm⟩ :=
      move_tiles_ok_vert d hv c00 c01 c02 c03 c10 c11 c12 c13 c20 c21 c22 c23
        c30 c31 c32 c33 g1 s1 mv h
    have hnn0 : ∀ u ∈ ([c00, c10, c20, c30] : List Int), 0 ≤ u := by
      intro u hu
      fin_cases hu
      · exact hpos [c00, c01, c02, c03] (by simp) c00 (by simp)
      · exact hpos [c10, c11, c12, c13] (by simp) c10 (by simp)
      · exact hpos [c20, c21, c22, c23] (by simp) c20 (by simp)
      · exact hpos [c30, c31, c32, c33] (by simp) c30 (by simp)
    have hnn1 : ∀ u ∈ ([c01, c11, c21, c31] : List Int), 0 ≤ u := by
      intro u hu
      fin_cases hu
      · exact hpos [c00, c01, c02, c03] (by simp) c01 (by simp)
      · exact hpos [c10, c11, c12, c13] (by simp) c11 (by simp)
      · exact hpos [c20, c21, c22, c23] (by simp) c21 (by simp)
      · exact hpos [c30, c31, c32, c33] (by simp) c31 (by simp)
    have hnn2 : ∀ u ∈ ([c02, c12, c22, c32] : List Int), 0 ≤ u := by
      intro u hu
      fin_cases hu
      · exact hpos [c00, c01, c02, c03] (by simp) c02 (by simp)
      · exact hpos [c10, c11, c12, c13] (by simp) c12 (by simp)
      · exact hpos [c20, c21, c22, c23] (by simp) c22 (by simp)
      · exact hpos [c30, c31, c32, c33] (by simp) c32 (by simp)
    have hnn3 : ∀ u ∈ ([c03, c13, c23, c33] : List Int), 0 ≤ u := by
      intro u hu
      fin_cases hu
      · exact hpos [c00, c01, c02, c03] (by simp) c03 (by simp)
      · exact hpos [c10, c11, c12, c13] (by simp) c13 (by simp)
      · exact hpos [c20, c21, c22, c23] (by simp) c23 (by simp)
      · exact hpos [c30, c31, c32, c33] (by simp) c33 (by simp)
    intro row hrow v hvr
    simp only [List.mem_cons, List.not_mem_nil, or_false] at hrow
    rcases hrow with hR | hR | hR | hR <;>
      · rw [hR] at hvr
        simp only [List.mem_cons, List.not_mem_nil, or_false] at hvr
        rcases hvr with hv1 | hv1 | hv1 | hv1
        · obtain ⟨w, hwm, hle⟩ := combine_exists_ge [c00, c10, c20, c30] (combineRight d)
            (by simp) hnn0 v (by simp [hv1])
          rw [hcol0] at hwm
          simp only [List.mem_cons, List.not_mem_nil, or_false] at hwm
          rcases hwm with hwq | hwq | hwq | hwq
          · exact ⟨[q00, q01, q02, q03], by rw [hg1]; simp, w, by simp [hwq], hle⟩
          · exact ⟨[q10, q11, q12, q13], by rw [hg1]; simp, w, by simp [hwq], hle⟩
          · exact ⟨[q20, q21, q22, q23], by rw [hg1]; simp, w, by simp [hwq], hle⟩
          · exact ⟨[q30, q31, q32, q33], by rw [hg1]; simp, w, by simp [hwq], hle⟩
        · obtain ⟨w, hwm, hle⟩ := combine_exists_ge [c01, c11, c21, c31] (combineRight d)
            (by simp) hnn1 v (by simp [hv1])
          rw [hcol1] at hwm
          simp only [List.mem_cons, List.not_mem_nil, or_false] at hwm
          rcases hwm with hwq | hwq | hwq | hwq
          · exact ⟨[q00, q01, q02, q03], by rw [hg1]; simp, w, by simp [hwq], hle⟩
          · exact ⟨[q10, q11, q12, q13], by rw [hg1]; simp, w, by simp [hwq], hle⟩
          · exact ⟨[q20, q21, q22, q23], by rw [hg1]; simp, w, by simp [hwq], hle⟩
          · exact ⟨[q30, q31, q32, q33], by rw [hg1]; simp, w, by simp [hwq], hle⟩
        · obtain ⟨w, hwm, hle⟩ := combine_exists_ge [c02, c12, c22, c32] (combineRight d)
            (by simp) hnn2 v (by simp [hv1])
          rw [hcol2] at hwm
          simp only [List.mem_cons, List.not_mem_nil, or_false] at hwm
          rcases hwm with hwq | hwq | hwq | hwq
          · exact ⟨[q00, q01, q02, q03], by rw [hg1]; simp, w, by simp [hwq], hle⟩
          · exact ⟨[q10, q11, q12, q13], by rw [hg1]; simp, w, by simp [hwq], hle⟩
          · exact ⟨[q20, q21, q22, q23], by rw [hg1]; simp, w, by simp [hwq], hle⟩
          · exact ⟨[q30, q31, q32, q33], by rw [hg1]; simp, w, by simp [hwq], hle⟩
        · obtain ⟨w, hwm, hle⟩ := combine_exists_ge [c03, c13, c23, c33] (combineRight d)
            (by simp) hnn3 v (by simp [hv1])
          rw [hcol3] at hwm
          simp only [List.mem_cons, List.not_mem_nil, or_false] at hwm
          rcases hwm with hwq | hwq | hwq | hwq
          · exact ⟨[q00, q01, q02, q03], by rw [hg1]; simp, w, by simp [hwq], hle⟩
          · exact ⟨[q10, q11, q12, q13], by rw [hg1]; simp, w, by simp [hwq], hle⟩
          · exact ⟨[q20, q21, q22, q23], by rw [hg1]; simp, w, by simp [hwq], hle⟩
          · exact ⟨[q30, q31, q32, q33], by rw [hg1]; simp, w, by simp [hwq], hle⟩

theorem mem_set_or {α : Type} (l : List α) :
    ∀ (x : Nat) (w dflt v : α), v ∈ l → v ∈ l.set x w ∨ v = l.getD x dflt := by
  induction l with
  | nil => simp
  | cons a l ih =>
    intro x w dflt v h
    rcases x with _ | x
    · rcases List.mem_cons.mp h with rfl | h2
      · right; simp
      · left; simp [h2]
    · rcases List.mem_cons.mp h with rfl | h2
      · left; simp
      · rcases ih x w dflt v h2 with h3 | h3
        · left
          simp only [List.set_cons_succ]
          exact List.mem_cons_of_mem a h3
        · right; simpa using h3

theorem set_self_mem {α : Type} (l : List α) (i : Nat) (a : α) (h : i < l.length) :
    a ∈ l.set i a := by
  have h2 := getD_set_self l i h a a
  have h3 := getD_mem_of_lt (l.set i a) i (by simpa using h) a
  rwa [h2] at h3

theorem wellFormed_set (g : Grid) (hw : wellFormed g) (x y : Nat) (v : Int)
    (hy : y < 4) (hx : x < 4) :
    wellFormed (g.set y ((g.getD y []).set x v)) := by
  refine ⟨by simpa using hw.1, ?_⟩
  intro row hr
  rcases List.mem_or_eq_of_mem_set hr with hr2 | rfl
  · exact hw.2 row hr2
  · rw [List.length_set]
    exact wf_row_length g hw y hy

theorem exists_getD_of_mem (l : List Int) (w : Int) (h : w ∈ l) :
    ∃ j, j < l.length ∧ l.getD j 0 = w := by
  induction l with
  | nil => simp at h
  | cons a l ih =>
    rcases List.mem_cons.mp h with rfl | h2
    · exact ⟨0, by simp, rfl⟩
    · obtain ⟨j, hj, he⟩ := ih h2
      exact ⟨j + 1, by simpa using hj, by simpa using he⟩

theorem countP_zero_set (row : List Int) :
    ∀ (x : Nat) (v : Int), x < row.length → row.getD x 0 = 0 → v ≠ 0 →
      (row.set x v).countP (fun z => z == 0) + 1 = row.countP (fun z => z == 0) := by
  induction row with
  | nil => simp
  | cons a row ih =>
    intro x v hx h0 hv
    rcases x with _ | x
    · simp only [List.getD_cons_zero] at h0
      subst h0
      simp [List.countP_cons, hv]
    · simp only [List.getD_cons_succ] at h0
      have := ih x v (by simpa using hx) h0 hv
      simp only [List.set_cons_succ, List.countP_cons]
      by_cases ha : a = 0 <;> simp [ha] <;> omega

theorem emptyCells_set_length (g1 : Grid) (x y : Nat) (v : Int) (hw1 : wellFormed g1)
    (hy : y < 4) (hx : x < 4) (h0 : getCell g1 y x = 0) (hv : v ≠ 0) :
    (emptyCells (g1.set y ((g1.getD y []).set x v))).length + 1 = (emptyCells g1).length := by
  have hw2 := wellFormed_set g1 hw1 x y v hy hx
  rw [emptyCells_length _ hw2, emptyCells_length g1 hw1]
  have hcnt := countP_zero_set (g1.getD y []) x v
    (by rw [wf_row_length g1 hw1 y hy]; exact hx) h0 hv
  have hlen : y < g1.length := by rw [hw1.1]; simpa [ROWS] using hy
  interval_cases y
  · rw [getD_set_self g1 0 hlen, getD_set_ne g1 0 1 (by omega), getD_set_ne g1 0 2 (by omega),
      getD_set_ne g1 0 3 (by omega)]
    omega
  · rw [getD_set_self g1 1 hlen, getD_set_ne g1 1 0 (by omega), getD_set_ne g1 1 2 (by omega),
      getD_set_ne g1 1 3 (by omega)]
    omega
  · rw [getD_set_self g1 2 hlen, getD_set_ne g1 2 0 (by omega), getD_set_ne g1 2 1 (by omega),
      getD_set_ne g1 2 3 (by omega)]
    omega
  · rw [getD_set_self g1 3 hlen, getD_set_ne g1 3 0 (by omega), getD_set_ne g1 3 1 (by omega),
      getD_set_ne g1 3 2 (by omega)]
    omega

/-- C10: on a grid with only non-negative cells, any completed `make_move`
(any direction, any random outcome) never decreases the value reported by
`get_biggest_block`: merges only double non-negative tiles and the spawner
only fills an empty cell with 2 or 4. -/
theorem claim_C10 (g : Grid) (d : Direction) (draw pick : Nat) (g' : Grid) (s : Int)
    (ov : Bool) (hw : wellFormed g) (hpos : ∀ row ∈ g, ∀ v ∈ row, 0 ≤ v)
    (h : make_move g d draw pick = .ok (g', s, ov)) :
    get_biggest_block g ≤ get_biggest_block g' := by
  rcases hmt : move_tiles g d with e | ⟨g1, s1, mv⟩
  · simp only [make_move, hmt] at h
    simp at h
  · obtain ⟨hw1, _⟩ := move_tiles_ok_cells g d g1 s1 mv hw hmt
    have hge := move_tiles_ok_ge g d g1 s1 mv hw hpos hmt
    have hb1 : get_biggest_block g ≤ get_biggest_block g1 :=
      biggest_le_of_mem_ge g g1 hw hw1 hge
    rcases mv with _ | _
    · simp only [make_move, hmt, Bool.false_eq_true, if_false, Except.ok.injEq,
        Prod.mk.injEq] at h
      obtain ⟨h1, _, _⟩ := h
      rw [← h1]
      exact hb1
    · by_cases hemp : emptyCells g1 = []
      · have hmm := make_move_moved g d draw pick g1 s1 g1 false hmt
          (place_none g1 draw pick hemp)
        rw [hmm] at h
        simp only [Bool.false_eq_true, if_false, Except.ok.injEq, Prod.mk.injEq] at h
        obtain ⟨h1, _, _⟩ := h
        rw [← h1]
        exact hb1
      · obtain ⟨x, y, hmem, hpl⟩ := place_spec g1 draw pick hemp
        obtain ⟨hy, hx, hz⟩ := (mem_emptyCells g1 x y).mp hmem
        have hmm := make_move_moved g d draw pick g1 s1 _ _ hmt hpl
        rw [hmm] at h
        have hg2 : g' = g1.set y ((g1.getD y []).set x (if draw > 0 then 2 else 4)) := by
          rcases hb : ((emptyCells g1).length - 1 != 0) with _ | _ <;>
            · rw [hb] at h
              simp only [if_true, Bool.false_eq_true, if_false, Except.ok.injEq,
                Prod.mk.injEq] at h
              exact h.1.symm
        have hvpos : (0 : Int) ≤ (if draw > 0 then 2 else 4) := by
          rcases draw with _ | n <;> norm_num
        have hxrow : x < (g1.getD y []).length := by
          rw [wf_row_length g1 hw1 y (by simpa [ROWS] using hy)]
          simpa [COLS] using hx
        refine le_trans hb1 ?_
        rw [hg2]
        refine biggest_le_of_mem_ge g1 _ hw1
          (wellFormed_set g1 hw1 x y _ (by simpa [ROWS] using hy) (by simpa [COLS] using hx))
          ?_
        intro row1 hrow1 v hv1
        rcases mem_set_or g1 y ((g1.getD y []).set x (if draw > 0 then 2 else 4)) [] row1
            hrow1 with hin | heq
        · exact ⟨row1, hin, v, hv1, le_rfl⟩
        · have hrowmem : (g1.getD y []).set x (if draw > 0 then 2 else 4) ∈
              g1.set y ((g1.getD y []).set x (if draw > 0 then 2 else 4)) :=
            set_self_mem g1 y _ (by rw [hw1.1]; simpa [ROWS] using hy)
          rw [heq] at hv1
          rcases mem_set_or (g1.getD y []) x (if draw > 0 then 2 else 4) 0 v hv1
            with hin2 | heq2
          · exact ⟨_, hrowmem, v, hin2, le_rfl⟩
          · refine ⟨_, hrowmem, (if draw > 0 then 2 else 4), set_self_mem _ x _ hxrow, ?_⟩
            rw [heq2]
            have : (g1.getD y []).getD x 0 = 0 := hz
            rw [this]
            exact hvpos

/-- Witness for C10: a left-merge move on a small board grows the biggest
tile from 2 to 4. -/
theorem claim_C10_witness :
    get_biggest_block [[2, 2, 0, 0], [0, 0, 0, 0], [0, 0, 0, 0], [0, 0, 0, 0]] ≤
      get_biggest_block [[4, 2, 0, 0], [0, 0, 0, 0], [0, 0, 0, 0], [0, 0, 0, 0]] :=
  claim_C10 [[2, 2, 0, 0], [0, 0, 0, 0], [0, 0, 0, 0], [0, 0, 0, 0]] Direction.LEFT 1 0
    [[4, 2, 0, 0], [0, 0, 0, 0], [0, 0, 0, 0], [0, 0, 0, 0]] 4 false
    (by decide)
    (by
      intro row hr v hv
      simp only [List.mem_cons, List.not_mem_nil, or_false] at hr
      rcases hr with rfl | rfl | rfl | rfl <;>
        · simp only [List.mem_cons, List.not_mem_nil, or_false] at hv
          rcases hv with rfl | rfl | rfl | rfl <;> norm_num)
    (by rfl)

theorem moved_empty_nonempty (g : Grid) (d : Direction) (g1 : Grid) (s : Int)
    (hw : wellFormed g) (hmt : move_tiles g d = .ok (g1, s, true)) :
    emptyCells g1 ≠ [] := by
  obtain ⟨hw1, _⟩ := move_tiles_ok_cells g d g1 s true hw hmt
  rcases hv : isVertical d with _ | _
  · obtain ⟨r0, r1, r2, r3, hg⟩ := exists_four g hw.1
    subst hg
    obtain ⟨hg1, hs, hm⟩ := move_tiles_ok_horiz d hv r0 r1 r2 r3 (hw.2 r0 (by simp))
      (hw.2 r1 (by simp)) (hw.2 r2 (by simp)) (hw.2 r3 (by simp)) g1 s true hmt
    subst hg1
    refine List.length_pos.mp ?_
    have hlen := emptyCells_length _ hw1
    simp only [List.getD_cons_zero, List.getD_cons_succ] at hlen
    have hm2 := hm.symm
    simp only [Bool.or_eq_true] at hm2
    rcases hm2 with ((hch | hch) | hch) | hch
    · have hzp := combine_changed_imp_zero r0 (combineRight d) (hw.2 r0 (by simp)) hch
      omega
    · have hzp := combine_changed_imp_zero r1 (combineRight d) (hw.2 r1 (by simp)) hch
      omega
    · have hzp := combine_changed_imp_zero r2 (combineRight d) (hw.2 r2 (by simp)) hch
      omega
    · have hzp := combine_changed_imp_zero r3 (combineRight d) (hw.2 r3 (by simp)) hch
      omega
  · obtain ⟨c00, c01, c02, c03, c10, c11, c12, c13, c20, c21, c22, c23,
      c30, c31, c32, c33, hg⟩ := grid_cells g hw
    subst hg
    obtain ⟨q00, q01, q02, q03, q10, q11, q12, q13, q20, q21, q22, q23, q30, q31, q32, q33,
      hg1, hcol0, hcol1, hcol2, hcol3, hs, hm⟩ :=
      move_tiles_ok_vert d hv c00 c01 c02 c03 c10 c11 c12 c13 c20 c21 c22 c23
        c30 c31 c32 c33 g1 s true hmt
    subst hg1
    refine List.length_pos.mp ?_
    have hlen := emptyCells_length _ hw1
    simp only [List.getD_cons_zero, List.getD_cons_succ] at hlen
    have hm2 := hm.symm
    simp only [Bool.or_eq_true] at hm2
    rcases hm2 with ((hch | hch) | hch) | hch
    · have hzp := combine_changed_imp_zero [c00, c10, c20, c30] (combineRight d)
        (by simp) hch
      obtain ⟨w, hwm, hwz⟩ := List.countP_pos_iff.mp hzp
      rw [hcol0] at hwm
      have hw0 : w = 0 := by simpa using hwz
      subst hw0
      simp only [List.mem_cons, List.not_mem_nil, or_false] at hwm
      rcases hwm with hq | hq | hq | hq
      · have hck : 0 < List.countP (fun z => z == 0) [q00, q01, q02, q03] :=
          List.countP_pos_iff.mpr ⟨q00, by simp, by simp [← hq]⟩
        omega
      · have hck : 0 < List.countP (fun z => z == 0) [q10, q11, q12, q13] :=
          List.countP_pos_iff.mpr ⟨q10, by simp, by simp [← hq]⟩
        omega
      · have hck : 0 < List.countP (fun z => z == 0) [q20, q21, q22, q23] :=
          List.countP_pos_iff.mpr ⟨q20, by simp, by simp [← hq]⟩
        omega
      · have hck : 0 < List.countP (fun z => z == 0) [q30, q31, q32, q33] :=
          List.countP_pos_iff.mpr ⟨q30, by simp, by simp [← hq]⟩
        omega
    · have hzp := combine_changed_imp_zero [c01, c11, c21, c31] (combineRight d)
        (by simp) hch
      obtain ⟨w, hwm, hwz⟩ := List.countP_pos_iff.mp hzp
      rw [hcol1] at hwm
      have hw0 : w = 0 := by simpa using hwz
      subst hw0
      simp only [List.mem_cons, List.not_mem_nil, or_false] at hwm
      rcases hwm with hq | hq | hq | hq
      · have hck : 0 < List.countP (fun z => z == 0) [q00, q01, q02, q03] :=
          List.countP_pos_iff.mpr ⟨q01, by simp, by simp [← hq]⟩
        omega
      · have hck : 0 < List.countP (fun z => z == 0) [q10, q11, q12, q13] :=
          List.countP_pos_iff.mpr ⟨q11, by simp, by simp [← hq]⟩
        omega
      · have hck : 0 < List.countP (fun z => z == 0) [q20, q21, q22, q23] :=
          List.countP_pos_iff.mpr ⟨q21, by simp, by simp [← hq]⟩
        omega
      · have hck : 0 < List.countP (fun z => z == 0) [q30, q31, q32, q33] :=
          List.countP_pos_iff.mpr ⟨q31, by simp, by simp [← hq]⟩
        omega
    · have hzp := combine_changed_imp_zero [c02, c12, c22, c32] (combineRight d)
        (by simp) hch
      obtain ⟨w, hwm, hwz⟩ := List.countP_pos_iff.mp hzp
      rw [hcol2] at hwm
      have hw0 : w = 0 := by simpa using hwz
      subst hw0
      simp only [List.mem_cons, List.not_mem_nil, or_false] at hwm
      rcases hwm with hq | hq | hq | hq
      · have hck : 0 < List.countP (fun z => z == 0) [q00, q01, q02, q03] :=
          List.countP_pos_iff.mpr ⟨q02, by simp, by simp [← hq]⟩
        omega
      · have hck : 0 < List.countP (fun z => z == 0) [q10, q11, q12, q13] :=
          List.countP_pos_iff.mpr ⟨q12, by simp, by simp [← hq]⟩
        omega
      · have hck : 0 < List.countP (fun z => z == 0) [q20, q21, q22, q23] :=
          List.countP_pos_iff.mpr ⟨q22, by simp, by simp [← hq]⟩
        omega
      · have hck : 0 < List.countP (fun z => z == 0) [q30, q31, q32, q33] :=
          List.countP_pos_iff.mpr ⟨q32, by simp, by simp [← hq]⟩
        omega
    · have hzp := combine_changed_imp_zero [c03, c13, c23, c33] (combineRight d)
        (by simp) hch
      obtain ⟨w, hwm, hwz⟩ := List.countP_pos_iff.mp hzp
      rw [hcol3] at hwm
      have hw0 : w = 0 := by simpa using hwz
      subst hw0
      simp only [List.mem_cons, List.not_mem_nil, or_false] at hwm
      rcases hwm with hq | hq | hq | hq
      · have hck : 0 < List.countP (fun z => z == 0) [q00, q01, q02, q03] :=
          List.countP_pos_iff.mpr ⟨q03, by simp, by simp [← hq]⟩
        omega
      · have hck : 0 < List.countP (fun z => z == 0) [q10, q11, q12, q13] :=
          List.countP_pos_iff.mpr ⟨q13, by simp, by simp [← hq]⟩
        omega
      · have hck : 0 < List.countP (fun z => z == 0) [q20, q21, q22, q23] :=
          List.countP_pos_iff.mpr ⟨q23, by simp, by simp [← hq]⟩
        omega
      · have hck : 0 < List.countP (fun z => z == 0) [q30, q31, q32, q33] :=
          List.countP_pos_iff.mpr ⟨q33, by simp, by simp [← hq]⟩
        omega

/-- Counterexample to C6 as stated: the left move on `[[2,2,0,0],0,...]`
reports `moved = true`, triggers no game over, the board was nowhere near
full, yet the empty-cell count stays at 14 (the merge freed one cell and
the spawn consumed one), so it does not decrease by exactly 1. -/
theorem claim_C6_counterexample :
    move_tiles [[2, 2, 0, 0], [0, 0, 0, 0], [0, 0, 0, 0], [0, 0, 0, 0]] Direction.LEFT =
      .ok ([[4, 0, 0, 0], [0, 0, 0, 0], [0, 0, 0, 0], [0, 0, 0, 0]], 4, true) ∧
    make_move [[2, 2, 0, 0], [0, 0, 0, 0], [0, 0, 0, 0], [0, 0, 0, 0]] Direction.LEFT 1 0 =
      .ok ([[4, 2, 0, 0], [0, 0, 0, 0], [0, 0, 0, 0], [0, 0, 0, 0]], 4, false) ∧
    (emptyCells [[2, 2, 0, 0], [0, 0, 0, 0], [0, 0, 0, 0], [0, 0, 0, 0]]).length = 14 ∧
    (emptyCells [[4, 2, 0, 0], [0, 0, 0, 0], [0, 0, 0, 0], [0, 0, 0, 0]]).length = 14 ∧
    (emptyCells [[4, 2, 0, 0], [0, 0, 0, 0], [0, 0, 0, 0], [0, 0, 0, 0]]).length ≠
      (emptyCells [[2, 2, 0, 0], [0, 0, 0, 0], [0, 0, 0, 0], [0, 0, 0, 0]]).length - 1 :=
  ⟨by rfl, by rfl, by rfl, by rfl, by decide⟩

/-- C6 (amended): after a move that reports `moved = true`, the post-slide
grid always has an empty cell, the spawner fills exactly one such cell with
a 2 or a 4, and the final empty-cell count is exactly one less than the
count of the grid just after sliding and merging (which can exceed the
pre-move count when merges occurred, so relative to the pre-move grid the
count need not decrease by 1). -/
theorem claim_C6_amended (g : Grid) (d : Direction) (draw pick : Nat) (g1 : Grid) (s : Int)
    (hw : wellFormed g) (hp : powGrid g)
    (hmt : move_tiles g d = .ok (g1, s, true)) :
    emptyCells g1 ≠ [] ∧
    ∃ g' : Grid, ∃ ov : Bool, make_move g d draw pick = .ok (g', s, ov) ∧
      (emptyCells g').length + 1 = (emptyCells g1).length ∧
      ∃ x y : Nat, x < COLS ∧ y < ROWS ∧ getCell g1 y x = 0 ∧
        (getCell g' y x = 2 ∨ getCell g' y x = 4) ∧
        ∀ y' x' : Nat, y' < ROWS → x' < COLS → ¬(y' = y ∧ x' = x) →
          getCell g' y' x' = getCell g1 y' x' := by
  obtain ⟨hw1, _⟩ := move_tiles_ok_cells g d g1 s true hw hmt
  have hne1 := moved_empty_nonempty g d g1 s hw hmt
  refine ⟨hne1, ?_⟩
  obtain ⟨x, y, hmem, hpl⟩ := place_spec g1 draw pick hne1
  obtain ⟨hy, hx, hz⟩ := (mem_emptyCells g1 x y).mp hmem
  have hmm := make_move_moved g d draw pick g1 s _ _ hmt hpl
  have hvne : (if draw > 0 then (2 : Int) else 4) ≠ 0 := by
    rcases draw with _ | n <;> norm_num
  have hcnt := emptyCells_set_length g1 x y (if draw > 0 then 2 else 4) hw1
    (by simpa [ROWS] using hy) (by simpa [COLS] using hx) hz hvne
  have hcell := getCell_set_tile g1 x y (if draw > 0 then (2 : Int) else 4)
    (by rw [hw1.1]; exact hy)
    (by
      rw [wf_row_length g1 hw1 y (by simpa [ROWS] using hy)]
      simpa [COLS] using hx)
  refine ⟨_, _, hmm, hcnt, x, y, hx, hy, hz, ?_, ?_⟩
  · rw [hcell y x]
    rcases draw with _ | n <;> simp
  · intro y' x' hy' hx' hne'
    rw [hcell y' x', if_neg hne']

/-- Witness for C6 (amended) on the counterexample board. -/
theorem claim_C6_amended_witness :
    emptyCells [[4, 0, 0, 0], [0, 0, 0, 0], [0, 0, 0, 0], [0, 0, 0, 0]] ≠ [] ∧
    ∃ g' : Grid, ∃ ov : Bool,
      make_move [[2, 2, 0, 0], [0, 0, 0, 0], [0, 0, 0, 0], [0, 0, 0, 0]] Direction.LEFT 1 0 =
        .ok (g', 4, ov) ∧
      (emptyCells g').length + 1 =
        (emptyCells [[4, 0, 0, 0], [0, 0, 0, 0], [0, 0, 0, 0], [0, 0, 0, 0]]).length ∧
      ∃ x y : Nat, x < COLS ∧ y < ROWS ∧
        getCell [[4, 0, 0, 0], [0, 0, 0, 0], [0, 0, 0, 0], [0, 0, 0, 0]] y x = 0 ∧
        (getCell g' y x = 2 ∨ getCell g' y x = 4) ∧
        ∀ y' x' : Nat, y' < ROWS → x' < COLS → ¬(y' = y ∧ x' = x) →
          getCell g' y' x' =
            getCell [[4, 0, 0, 0], [0, 0, 0, 0], [0, 0, 0, 0], [0, 0, 0, 0]] y' x' :=
  claim_C6_amended [[2, 2, 0, 0], [0, 0, 0, 0], [0, 0, 0, 0], [0, 0, 0, 0]] Direction.LEFT 1 0
    [[4, 0, 0, 0], [0, 0, 0, 0], [0, 0, 0, 0], [0, 0, 0, 0]] 4
    (by decide)
    (by
      intro row hr v hv
      simp only [List.mem_cons, List.not_mem_nil, or_false] at hr
      rcases hr with rfl | rfl | rfl | rfl <;>
        · simp only [List.mem_cons, List.not_mem_nil, or_false] at hv
          rcases hv with rfl | rfl | rfl | rfl <;>
            first
              | exact Or.inl rfl
              | exact Or.inr ⟨1, Nat.one_pos, by decide⟩)
    (by rfl)

end Game2048
